import Mathlib

/-!
# NOVA microhypervisor: VMX bring-up (`src/vmx.cpp`) and user memory access (`include/user.h`)

A shallow embedding of the two source files.

* Machine integers are natural numbers reduced modulo `2 ^ width` at every
  operation whose C++ type has that width.  `uint32` and `unsigned` are 32 bits,
  `uint64` is 64 bits, and `mword` (`unsigned long`) is `w` bits, a parameter.
* Static state (`Vmcs::basic`, `Vmcs::ctrl_pin`, ... , `Vmcs::vpid_ctr`) and the
  processor state the code touches (CR0, CR4, the current VMCS) are fields of
  `Machine`, threaded explicitly through `Vmcs_ctor` and `Vmcs_init`.
* The inline assembly of `User::peek` and `User::cmp_swap` is embedded
  instruction by instruction over a register and memory state.
-/

namespace Nova

/-! ## Machine words -/

/-- Bitwise complement `~x` of a value of a `w`-bit unsigned type. -/
def bnot (w x : Nat) : Nat := 2 ^ w - 1 - x % 2 ^ w

/-- The `uint32` and `unsigned` width. -/
def u32 : Nat := 32

/-- The `uint64` width. -/
def u64 : Nat := 64

/-! ## `include/user.h` -/

namespace User

/-- One object of type `T` in memory: its value and whether the page holding it
may be written. -/
structure Cell where
  val : Nat
  writable : Bool
deriving DecidableEq, Repr

/-- Memory as seen through a `T *`: `none` is an address whose access raises a
hardware fault. -/
abbrev Memory := Nat → Option Cell

/-- The registers and memory the two assembly fragments operate on:
`eax` is operand `%0` (constraint `a`), `reg` is the operand with constraint `r`. -/
structure Cpu where
  eax : Nat
  reg : Nat
  mem : Memory

/-- `mov %2, %1`: load the object at `addr` into `reg`; `none` when the load
faults (control then leaves the fragment through the `.fixup` entry `1b,2b`,
which is handled by the trap dispatcher outside these sources). -/
def mov_load (addr : Nat) (c : Cpu) : Option Cpu :=
  match c.mem addr with
  | none => none
  | some cell => some { c with reg := cell.val }

/-- `or $-1, %0`: or the `w`-bit accumulator with all ones. -/
def or_minus_one (w : Nat) (c : Cpu) : Cpu :=
  { c with eax := (c.eax ||| bnot w 0) % 2 ^ w }

/-- `lock; cmpxchg %3, %1`: compare the accumulator with the object at `addr`;
when equal store `reg` there, otherwise load the object into the accumulator.
The instruction performs a write cycle in both cases, so it faults on an
unmapped or read-only location. -/
def lock_cmpxchg (addr : Nat) (c : Cpu) : Option Cpu :=
  match c.mem addr with
  | none => none
  | some cell =>
    if cell.writable = false then none
    else if cell.val = c.eax then
      some { c with mem := fun a => if a = addr then some { cell with val := c.reg } else c.mem a }
    else
      some { c with eax := cell.val }

/-- `User::peek (T *addr, T &val)`: the pair `(ret, val)` together with the
memory afterwards, or `none` when the load faults.  `ret0` and `val0` are the
contents of the two output registers on entry (both are uninitialised in the
source). -/
def peek (w : Nat) (mem : Memory) (ret0 val0 : Nat) (addr : Nat) : Option (Nat × Nat × Memory) :=
  match mov_load addr { eax := ret0, reg := val0, mem := mem } with
  | none => none
  | some c1 =>
    let c2 := or_minus_one w c1
    some (c2.eax, c2.reg, c2.mem)

/-- `User::cmp_swap (T *addr, T o, T n)`: the returned `ret` and the memory
afterwards, or `none` when the instruction faults. -/
def cmp_swap (w : Nat) (mem : Memory) (addr o n : Nat) : Option (Nat × Memory) :=
  match lock_cmpxchg addr { eax := o, reg := n, mem := mem } with
  | none => none
  | some c1 =>
    let c2 := or_minus_one w c1
    some (c2.eax, c2.mem)

/-- The status both fragments leave in `ret` when no fault occurs: all ones. -/
def SUCCESS (w : Nat) : Nat := 2 ^ w - 1

/-- A memory with a single mapped, writable object. -/
def single (addr v : Nat) : Memory :=
  fun a => if a = addr then some { val := v, writable := true } else none

end User

/-! ## `src/vmx.cpp`: declarations taken from headers -/

/-- Enumerators and addresses that `vmx.cpp` uses and that are declared in
headers outside these sources (`vmx.h`, `cpu.h`, `selectors.h`, `tss.h`,
`gdt.h`, `idt.h`, `extern.h`).  They are parameters of the embedding.  The last
three fields are the bit positions of the bit-fields `vmx_basic::ctrl`,
`vmx_ept_vpid::invept` and `vmx_ept_vpid::invvpid` inside the 64-bit `val` they
share storage with. -/
structure Consts where
  PIN_EXTINT : Nat
  PIN_NMI : Nat
  EXI_INTA : Nat
  CPU_HLT : Nat
  CPU_IO : Nat
  CPU_SECONDARY : Nat
  CPU_EPT : Nat
  CPU_VPID : Nat
  CR0_TS : Nat
  SEL_KERN_CODE : Nat
  SEL_KERN_DATA : Nat
  SEL_TSS_RUN : Nat
  tss_run : Nat
  tss_run_sp0 : Nat
  gdt : Nat
  idt : Nat
  entry_sysenter : Nat
  entry_vmx : Nat
  basic_ctrl : Nat
  invept : Nat
  invvpid : Nat
deriving Repr

/-- The values these constants have on IA-32 processors (bit positions as in
the processor manual; selectors and addresses are sample values). -/
def ia32 : Consts :=
  { PIN_EXTINT := 0x1, PIN_NMI := 0x8, EXI_INTA := 0x8000,
    CPU_HLT := 0x80, CPU_IO := 0x1000000, CPU_SECONDARY := 0x80000000,
    CPU_EPT := 0x2, CPU_VPID := 0x20, CR0_TS := 0x8,
    SEL_KERN_CODE := 0x8, SEL_KERN_DATA := 0x10, SEL_TSS_RUN := 0x18,
    tss_run := 0xc0001000, tss_run_sp0 := 0xc0001004, gdt := 0xc0002000,
    idt := 0xc0003000, entry_sysenter := 0xc0004000, entry_vmx := 0xc0005000,
    basic_ctrl := 55, invept := 20, invvpid := 32 }

/-- Modelled from the spec: the enumeration of VMCS field encodings is declared in
`vmx.h`, outside these sources.  It has the encodings named in `Vmcs::Vmcs` and,
for the primary and secondary processor-based control fields that the data model
lists next to the pin-based, exit and entry control fields, `CPU_EXEC_CTRL0` and
`CPU_EXEC_CTRL1`, which `vmx.cpp` never names. -/
inductive Encoding where
  | PIN_EXEC_CTRL
  | CPU_EXEC_CTRL0
  | CPU_EXEC_CTRL1
  | EXI_CONTROLS
  | ENT_CONTROLS
  | PF_ERROR_MASK
  | PF_ERROR_MATCH
  | CR3_TARGET_COUNT
  | VMCS_LINK_PTR
  | VMCS_LINK_PTR_HI
  | VPID
  | EPTP
  | EPTP_HI
  | HOST_SEL_CS
  | HOST_SEL_SS
  | HOST_SEL_DS
  | HOST_SEL_ES
  | HOST_SEL_TR
  | HOST_CR3
  | HOST_CR0
  | HOST_CR4
  | HOST_BASE_TR
  | HOST_BASE_GDTR
  | HOST_BASE_IDTR
  | HOST_SYSENTER_CS
  | HOST_SYSENTER_ESP
  | HOST_SYSENTER_EIP
  | HOST_RSP
  | HOST_RIP
deriving DecidableEq, Repr

namespace Msr

/-- The capability registers `Vmcs::init` reads. -/
inductive Register where
  | IA32_FEATURE_CONTROL
  | IA32_VMX_BASIC
  | IA32_VMX_CTRL_PIN
  | IA32_VMX_CTRL_CPU0
  | IA32_VMX_CTRL_EXIT
  | IA32_VMX_CTRL_ENTRY
  | IA32_VMX_CR0_FIXED0
  | IA32_VMX_CR0_FIXED1
  | IA32_VMX_CR4_FIXED0
  | IA32_VMX_CR4_FIXED1
  | IA32_VMX_CTRL_CPU1
  | IA32_VMX_EPT_VPID
  | IA32_VMX_TRUE_PIN
  | IA32_VMX_TRUE_CPU0
  | IA32_VMX_TRUE_EXIT
  | IA32_VMX_TRUE_ENTRY
deriving DecidableEq, Repr

end Msr

/-- What `Vmcs::init` reads and never writes: `Cpu::feature (Cpu::FEAT_VMX)`,
`Cpu::secure`, the raw contents of the capability registers, `Cmdline::noept`
and `Cmdline::novpid`. -/
structure Env where
  feat_vmx : Bool
  secure : Bool
  msr : Msr.Register → Nat
  noept : Bool
  novpid : Bool

/-- `Msr::read<T>` for a `T` of `bits` bits: the register contents converted to `T`. -/
def Msr.read (bits : Nat) (env : Env) (r : Msr.Register) : Nat :=
  env.msr r % 2 ^ bits

/-! ## `src/vmx.cpp`: the capability store -/

/-- A capability descriptor, `union { uint64 val; struct { uint32 set, clr; }; }`:
the 64-bit storage, of which `set` is the low and `clr` the high half. -/
structure Ctrl where
  val : Nat
deriving DecidableEq, Repr

/-- Member `set`: the low 32 bits of the storage. -/
def Ctrl.set (c : Ctrl) : Nat := c.val % 2 ^ u32

/-- Member `clr`: the high 32 bits of the storage. -/
def Ctrl.clr (c : Ctrl) : Nat := c.val / 2 ^ u32 % 2 ^ u32

/-- The compound assignment `c.set |= x`. -/
def Ctrl.or_set (c : Ctrl) (x : Nat) : Ctrl :=
  { val := c.clr * 2 ^ u32 + (c.set ||| x) % 2 ^ u32 }

/-- The compound assignment `c.clr &= x`. -/
def Ctrl.and_clr (c : Ctrl) (x : Nat) : Ctrl :=
  { val := (c.clr &&& x) % 2 ^ u32 * 2 ^ u32 + c.set }

/-- A fixed-register descriptor, `struct { mword set, clr; }`. -/
structure Fix where
  set : Nat
  clr : Nat
deriving DecidableEq, Repr

/-- The static members of `Vmcs` that hold capabilities (lines 32 to 39);
`basic` and `ept_vpid` are the 64-bit `val` of their unions and `ctrl_cpu0`,
`ctrl_cpu1` are the two elements of `ctrl_cpu`. -/
structure Store where
  basic : Nat
  ept_vpid : Nat
  ctrl_pin : Ctrl
  ctrl_cpu0 : Ctrl
  ctrl_cpu1 : Ctrl
  ctrl_exi : Ctrl
  ctrl_ent : Ctrl
  fix_cr0 : Fix
  fix_cr4 : Fix
deriving DecidableEq, Repr

/-- The zero-initialised store the statics start as. -/
def Store.zero : Store :=
  { basic := 0, ept_vpid := 0, ctrl_pin := { val := 0 }, ctrl_cpu0 := { val := 0 },
    ctrl_cpu1 := { val := 0 }, ctrl_exi := { val := 0 }, ctrl_ent := { val := 0 },
    fix_cr0 := { set := 0, clr := 0 }, fix_cr4 := { set := 0, clr := 0 } }

/-- Member `basic.revision`: the low 32 bits of `basic.val`. -/
def Store.revision (st : Store) : Nat := st.basic % 2 ^ u32

/-- Bit-field `basic.ctrl`. -/
def Store.ctrl (k : Consts) (st : Store) : Bool := st.basic.testBit k.basic_ctrl

/-- Bit-field `ept_vpid.invept`. -/
def Store.invept (k : Consts) (st : Store) : Bool := st.ept_vpid.testBit k.invept

/-- Bit-field `ept_vpid.invvpid`. -/
def Store.invvpid (k : Consts) (st : Store) : Bool := st.ept_vpid.testBit k.invvpid

/-- Modelled from the spec: `Vmcs::has_secondary()` is defined in `vmx.h`, outside
these sources; the primary category indicates that secondary controls are
supported when its allowed mask contains `CPU_SECONDARY`. -/
def has_secondary (k : Consts) (st : Store) : Bool :=
  decide (st.ctrl_cpu0.clr &&& k.CPU_SECONDARY ≠ 0)

/-- Modelled from the spec: `Vmcs::has_ept()` is defined in `vmx.h`, outside these
sources; extended paging is indicated as supported when the secondary allowed
mask contains `CPU_EPT`. -/
def has_ept (k : Consts) (st : Store) : Bool :=
  decide (st.ctrl_cpu1.clr &&& k.CPU_EPT ≠ 0)

/-- Modelled from the spec: `Vmcs::has_vpid()` is defined in `vmx.h`, outside these
sources; identifier tagging is indicated as supported when the secondary
allowed mask contains `CPU_VPID`. -/
def has_vpid (k : Consts) (st : Store) : Bool :=
  decide (st.ctrl_cpu1.clr &&& k.CPU_VPID ≠ 0)

/-! ## `src/vmx.cpp`: machine state -/

/-- What the code does to the world outside the store, in program order. -/
inductive Event where
  /-- The member initialiser `rev (basic.revision)` of the structure at `self`. -/
  | rev (self val : Nat)
  /-- The call `clear()` on the structure at `self`. -/
  | clear (self : Nat)
  /-- The call `make_current()` on the structure at `self`. -/
  | make_current (self : Nat)
  /-- The call `write (enc, val)`, which goes to the current structure. -/
  | write (enc : Encoding) (val : Nat)
  /-- The call `Hip::disfeature (Hip::FEAT_VMX)`. -/
  | disfeature
  /-- The expression `new Vmcs` in `Vmcs::init`.  The no-argument constructor it
  runs is defined in `vmx.h`, outside these sources, so only the construction
  is recorded. -/
  | new_root
  /-- The diagnostic line of `Vmcs::init` with the arguments computed from the
  store: revision, both processor-based allowed masks, `has_vpid()`, `has_ept()`. -/
  | print (revision cpu0_clr cpu1_clr : Nat) (vpid ept : Bool)
deriving DecidableEq, Repr

/-- The mutable state `vmx.cpp` works on. -/
structure Machine where
  store : Store
  vpid_ctr : Nat
  current : Option Nat
  cr0 : Nat
  cr4 : Nat
  trace : List Event
  halted : Bool
deriving DecidableEq, Repr

/-- `Cpu::get_cr0()`. -/
def Machine.get_cr0 (w : Nat) (s : Machine) : Nat := s.cr0 % 2 ^ w

/-- `Cpu::get_cr4()`. -/
def Machine.get_cr4 (w : Nat) (s : Machine) : Nat := s.cr4 % 2 ^ w

/-- The call `write (enc, val)`: `val` is converted to the `mword` parameter. -/
def wr (w : Nat) (enc : Encoding) (val : Nat) : Event := Event.write enc (val % 2 ^ w)

/-! ## `Vmcs::Vmcs (mword esp, mword cr3, mword eptp)` -/

/-- Lines 47 to 49, 52 to 54 and 57 to 59: a `uint32` initialised with
`desired`, then `|= d.set`, then `&= d.clr`. -/
def compose (desired : Nat) (d : Ctrl) : Nat :=
  ((desired % 2 ^ u32 ||| d.set) % 2 ^ u32 &&& d.clr) % 2 ^ u32

/-- The value `pin` written to `PIN_EXEC_CTRL`. -/
def pin_value (k : Consts) (st : Store) : Nat := compose (k.PIN_EXTINT ||| k.PIN_NMI) st.ctrl_pin

/-- The value `exi` written to `EXI_CONTROLS`. -/
def exi_value (k : Consts) (st : Store) : Nat := compose k.EXI_INTA st.ctrl_exi

/-- The value `ent` written to `ENT_CONTROLS`. -/
def ent_value (st : Store) : Nat := compose 0 st.ctrl_ent

/-- The pre-increment `++vpid_ctr` on an `unsigned`. -/
def next_vpid (ctr : Nat) : Nat := (ctr + 1) % 2 ^ u32

/-- Lines 41 to 81: everything the constructor does before its assertion. -/
def ctor_head (w : Nat) (k : Consts) (s : Machine) (self cr3 eptp : Nat) : List Event :=
  [ Event.rev self s.store.revision,
    Event.clear self,
    Event.make_current self,
    wr w Encoding.PIN_EXEC_CTRL (pin_value k s.store),
    wr w Encoding.EXI_CONTROLS (exi_value k s.store),
    wr w Encoding.ENT_CONTROLS (ent_value s.store),
    wr w Encoding.PF_ERROR_MASK 0,
    wr w Encoding.PF_ERROR_MATCH 0,
    wr w Encoding.CR3_TARGET_COUNT 0,
    wr w Encoding.VMCS_LINK_PTR (bnot w 0),
    wr w Encoding.VMCS_LINK_PTR_HI (bnot w 0),
    wr w Encoding.VPID (next_vpid s.vpid_ctr),
    wr w Encoding.EPTP (eptp % 2 ^ w ||| 0x1e),
    wr w Encoding.EPTP_HI 0,
    wr w Encoding.HOST_SEL_CS k.SEL_KERN_CODE,
    wr w Encoding.HOST_SEL_SS k.SEL_KERN_DATA,
    wr w Encoding.HOST_SEL_DS k.SEL_KERN_DATA,
    wr w Encoding.HOST_SEL_ES k.SEL_KERN_DATA,
    wr w Encoding.HOST_SEL_TR k.SEL_TSS_RUN,
    wr w Encoding.HOST_CR3 cr3,
    wr w Encoding.HOST_CR0 (s.get_cr0 w),
    wr w Encoding.HOST_CR4 (s.get_cr4 w) ]

/-- Lines 85 to 94: everything the constructor does after its assertion. -/
def ctor_tail (w : Nat) (k : Consts) (esp : Nat) : List Event :=
  [ wr w Encoding.HOST_BASE_TR k.tss_run,
    wr w Encoding.HOST_BASE_GDTR k.gdt,
    wr w Encoding.HOST_BASE_IDTR k.idt,
    wr w Encoding.HOST_SYSENTER_CS k.SEL_KERN_CODE,
    wr w Encoding.HOST_SYSENTER_ESP k.tss_run_sp0,
    wr w Encoding.HOST_SYSENTER_EIP k.entry_sysenter,
    wr w Encoding.HOST_RSP esp,
    wr w Encoding.HOST_RIP k.entry_vmx ]

/-- `Vmcs::Vmcs (esp, cr3, eptp)` run on the structure at address `self`.
`make_current()` makes `self` the current structure, `++vpid_ctr` updates the
counter, and a failing `assert (Cpu::get_cr0() & Cpu::CR0_TS)` halts the machine
with everything before it done and nothing after it.  A halted machine runs
nothing. -/
def Vmcs_ctor (w : Nat) (k : Consts) (s : Machine) (self esp cr3 eptp : Nat) : Machine :=
  if s.halted then s
  else
    let s1 : Machine :=
      { s with current := some self,
               vpid_ctr := next_vpid s.vpid_ctr,
               trace := s.trace ++ ctor_head w k s self cr3 eptp }
    if s.get_cr0 w &&& k.CR0_TS = 0 then { s1 with halted := true }
    else { s1 with trace := s1.trace ++ ctor_tail w k esp }

/-- One construction request: the structure's address and the three arguments. -/
structure Args where
  self : Nat
  esp : Nat
  cr3 : Nat
  eptp : Nat
deriving DecidableEq, Repr

/-- Constructions run one after another. -/
def construct_all (w : Nat) (k : Consts) (s : Machine) (l : List Args) : Machine :=
  l.foldl (fun m a => Vmcs_ctor w k m a.self a.esp a.cr3 a.eptp) s

/-- The values written to the `VPID` field, in program order. -/
def vpids (tr : List Event) : List Nat :=
  tr.filterMap (fun e =>
    match e with
    | Event.write Encoding.VPID v => some v
    | _ => none)

/-- The value, if any, of the first `write` to `enc` in a run of events. -/
def written (enc : Encoding) (tr : List Event) : Option Nat :=
  tr.findSome? (fun e =>
    match e with
    | Event.write e1 v => if e1 = enc then some v else none
    | _ => none)

/-! ## `Vmcs::init ()` -/

/-- The local `bits` of line 104. -/
def lock_bits (env : Env) : Nat := if env.secure then 0x3 else 0x5

/-- The condition of line 105 under which `init` returns early. -/
def locked_out (env : Env) : Bool :=
  decide (Msr.read u32 env Msr.Register.IA32_FEATURE_CONTROL &&& lock_bits env ≠ lock_bits env)

/-- The reads of lines 114 to 117,
`Msr::read<uint64> (basic.ctrl ? true_reg : ctrl_reg)`. -/
def report (env : Env) (ctrl : Bool) (true_reg ctrl_reg : Msr.Register) : Nat :=
  Msr.read u64 env (if ctrl then true_reg else ctrl_reg)

/-- Lines 108 to 117: the fixed-register descriptors, the basic report and the
four reports that are always read. -/
def read_caps (w : Nat) (k : Consts) (env : Env) (st : Store) : Store :=
  let st1 : Store :=
    { st with
      fix_cr0 := { set := Msr.read w env Msr.Register.IA32_VMX_CR0_FIXED0,
                   clr := bnot w (Msr.read w env Msr.Register.IA32_VMX_CR0_FIXED1) },
      fix_cr4 := { set := Msr.read w env Msr.Register.IA32_VMX_CR4_FIXED0,
                   clr := bnot w (Msr.read w env Msr.Register.IA32_VMX_CR4_FIXED1) },
      basic := Msr.read u64 env Msr.Register.IA32_VMX_BASIC }
  { st1 with
    ctrl_exi := { val := report env (st1.ctrl k)
                    Msr.Register.IA32_VMX_TRUE_EXIT Msr.Register.IA32_VMX_CTRL_EXIT },
    ctrl_ent := { val := report env (st1.ctrl k)
                    Msr.Register.IA32_VMX_TRUE_ENTRY Msr.Register.IA32_VMX_CTRL_ENTRY },
    ctrl_pin := { val := report env (st1.ctrl k)
                    Msr.Register.IA32_VMX_TRUE_PIN Msr.Register.IA32_VMX_CTRL_PIN },
    ctrl_cpu0 := { val := report env (st1.ctrl k)
                    Msr.Register.IA32_VMX_TRUE_CPU0 Msr.Register.IA32_VMX_CTRL_CPU0 } }

/-- Lines 119 and 120. -/
def read_secondary (k : Consts) (env : Env) (st : Store) : Store :=
  if has_secondary k st then
    { st with ctrl_cpu1 := { val := Msr.read u64 env Msr.Register.IA32_VMX_CTRL_CPU1 } }
  else st

/-- Lines 121 and 122. -/
def read_ept_vpid (k : Consts) (env : Env) (st : Store) : Store :=
  if has_ept k st || has_vpid k st then
    { st with ept_vpid := Msr.read u64 env Msr.Register.IA32_VMX_EPT_VPID }
  else st

/-- Lines 124 and 125. -/
def augment (k : Consts) (st : Store) : Store :=
  let st1 : Store :=
    { st with ctrl_cpu0 := st.ctrl_cpu0.or_set ( k.CPU_HLT ||| k.CPU_IO ||| k.CPU_SECONDARY) }
  { st1 with ctrl_cpu1 := st1.ctrl_cpu1.or_set k.CPU_VPID }

/-- Lines 127 to 130. -/
def restrict (k : Consts) (env : Env) (st : Store) : Store :=
  let st1 : Store :=
    if env.noept || !st.invept k then
      { st with ctrl_cpu1 := st.ctrl_cpu1.and_clr (bnot u32 k.CPU_EPT) }
    else st
  if env.novpid || !st1.invvpid k then
    { st1 with ctrl_cpu1 := st1.ctrl_cpu1.and_clr (bnot u32 k.CPU_VPID) }
  else st1

/-- Lines 108 to 130: the store after capability derivation. -/
def derive (w : Nat) (k : Consts) (env : Env) (st : Store) : Store :=
  restrict k env (augment k (read_ept_vpid k env (read_secondary k env (read_caps w k env st))))

/-- The secondary descriptor `c` after lines 127 to 130 when `ept_vpid.val` is `ev`:
the effect of `restrict` on `ctrl_cpu[1]`, used to state what `restrict` computes. -/
def restrict_cpu1 (k : Consts) (env : Env) (ev : Nat) (c : Ctrl) : Ctrl :=
  let c1 : Ctrl :=
    if env.noept || !ev.testBit k.invept then c.and_clr (bnot u32 k.CPU_EPT) else c
  if env.novpid || !ev.testBit k.invvpid then c1.and_clr (bnot u32 k.CPU_VPID) else c1

/-- The contents of `ctrl_cpu[1]` after line 120, which lines 124 to 130 then modify: the
secondary report when `has_secondary()` holds, the previous contents otherwise. -/
def secondary_source (w : Nat) (k : Consts) (env : Env) (st : Store) : Ctrl :=
  (read_secondary k env (read_caps w k env st)).ctrl_cpu1

/-- The argument of `Cpu::set_cr0` and `Cpu::set_cr4` on lines 132 and 133. -/
def apply_fix (w : Nat) (r : Nat) (f : Fix) : Nat :=
  ((r % 2 ^ w &&& bnot w f.clr) ||| f.set) % 2 ^ w

/-- `Vmcs::init ()`. -/
def Vmcs_init (w : Nat) (k : Consts) (env : Env) (s : Machine) : Machine :=
  if s.halted then s
  else if !env.feat_vmx then { s with trace := s.trace ++ [Event.disfeature] }
  else if locked_out env then s
  else
    let st := derive w k env s.store
    { s with
      store := st,
      cr0 := apply_fix w s.cr0 st.fix_cr0,
      cr4 := apply_fix w s.cr4 st.fix_cr4,
      trace := s.trace ++
        [ Event.new_root,
          Event.print st.revision st.ctrl_cpu0.clr st.ctrl_cpu1.clr (has_vpid k st) (has_ept k st) ] }

/-- Whether `init` runs to its end: the machine runs, the processor advertises
the feature and the lock bits are set. -/
def completes (env : Env) (s : Machine) : Bool :=
  !s.halted && env.feat_vmx && !locked_out env

/-- The events a run added to the trace. -/
def run_events (before after : Machine) : List Event :=
  after.trace.drop before.trace.length

/-- The capability reports that describe a control field. -/
def is_ctrl_report : Msr.Register → Bool
  | Msr.Register.IA32_VMX_CTRL_PIN => true
  | Msr.Register.IA32_VMX_CTRL_CPU0 => true
  | Msr.Register.IA32_VMX_CTRL_CPU1 => true
  | Msr.Register.IA32_VMX_CTRL_EXIT => true
  | Msr.Register.IA32_VMX_CTRL_ENTRY => true
  | Msr.Register.IA32_VMX_TRUE_PIN => true
  | Msr.Register.IA32_VMX_TRUE_CPU0 => true
  | Msr.Register.IA32_VMX_TRUE_EXIT => true
  | Msr.Register.IA32_VMX_TRUE_ENTRY => true
  | _ => false

/-- Mask inclusion `a ⊆ b` on bit masks. -/
def subset (a b : Nat) : Prop := a &&& b = a

instance (a b : Nat) : Decidable (subset a b) := by
  unfold subset
  infer_instance

/-- The machine before any code of `vmx.cpp` has run, with the given CR0. -/
def Machine.boot (cr0 : Nat) : Machine :=
  { store := Store.zero, vpid_ctr := 0, current := none, cr0 := cr0, cr4 := 0,
    trace := [], halted := false }

/-! ## Sample inputs -/

/-- Capability reports of a sample processor. -/
def sample_msr : Msr.Register → Nat
  | Msr.Register.IA32_FEATURE_CONTROL => 0x5
  | Msr.Register.IA32_VMX_BASIC => 0xda040000000004
  | Msr.Register.IA32_VMX_CTRL_PIN => 0x7f00000016
  | Msr.Register.IA32_VMX_CTRL_CPU0 => 0xfff9fffe0401e172
  | Msr.Register.IA32_VMX_CTRL_EXIT => 0x7fffff00036dff
  | Msr.Register.IA32_VMX_CTRL_ENTRY => 0xffff000011ff
  | Msr.Register.IA32_VMX_CR0_FIXED0 => 0x80000021
  | Msr.Register.IA32_VMX_CR0_FIXED1 => 0xffffffff
  | Msr.Register.IA32_VMX_CR4_FIXED0 => 0x2000
  | Msr.Register.IA32_VMX_CR4_FIXED1 => 0x3727ff
  | Msr.Register.IA32_VMX_CTRL_CPU1 => 0xff00000000
  | Msr.Register.IA32_VMX_EPT_VPID => 0xf0106114141
  | Msr.Register.IA32_VMX_TRUE_PIN => 0x7f00000016
  | Msr.Register.IA32_VMX_TRUE_CPU0 => 0xfff9fffe04006172
  | Msr.Register.IA32_VMX_TRUE_EXIT => 0x7fffff00036dfb
  | Msr.Register.IA32_VMX_TRUE_ENTRY => 0xffff000011fb

/-- A sample environment: the feature is advertised and unlocked, no override is set. -/
def sample_env : Env :=
  { feat_vmx := true, secure := false, msr := sample_msr, noept := false, novpid := false }

/-- The machine after `Vmcs::init` ran once on the sample environment. -/
def Machine.sample : Machine := Vmcs_init 32 ia32 sample_env (Machine.boot 0x8)

/-- The sample machine with the identifier counter at its largest value. -/
def Machine.last_vpid : Machine := { Machine.sample with vpid_ctr := 4294967295 }

/-- A sample construction request. -/
def Args.sample : Args := { self := 0x5000, esp := 0x9000, cr3 := 0x3000, eptp := 0x7000 }

/-- Every control-field report has its mandatory half (low 32 bits) inside its allowed
half (high 32 bits). -/
def reports_ok (env : Env) : Prop :=
  ∀ r, is_ctrl_report r = true →
    subset (Ctrl.mk (Msr.read u64 env r)).set (Ctrl.mk (Msr.read u64 env r)).clr

/-- The sample environment with the feature-control register left at zero: the processor
advertises the feature but the lock bits are not set. -/
def locked_env : Env :=
  { sample_env with
    msr := fun r => if r = Msr.Register.IA32_FEATURE_CONTROL then 0 else sample_msr r }

/-- The sample environment on a processor that does not advertise the feature. -/
def no_vmx_env : Env := { sample_env with feat_vmx := false }

/-- The sample environment with the `novpid` override set. -/
def novpid_env : Env := { sample_env with novpid := true }

/-- The sample environment with the `noept` override set. -/
def noept_env : Env := { sample_env with noept := true }

/-- The machine after `Vmcs::init` ran once on the sample environment with `noept` set. -/
def Machine.sample_noept : Machine := Vmcs_init 32 ia32 noept_env (Machine.boot 0x8)

/-! ## Word lemmas -/

theorem testBit_bnot (w x i : Nat) :
    (bnot w x).testBit i = (decide (i < w) && !x.testBit i) := by
  unfold bnot
  have hlt : x % 2 ^ w < 2 ^ w := Nat.mod_lt _ (Nat.two_pow_pos w)
  have h := Nat.testBit_two_pow_sub_succ hlt i
  have e : 2 ^ w - 1 - x % 2 ^ w = 2 ^ w - (x % 2 ^ w + 1) := by omega
  rw [e, h, Nat.testBit_mod_two_pow]
  cases decide (i < w) <;> simp

theorem or_all_ones (w x : Nat) : (x ||| bnot w 0) % 2 ^ w = 2 ^ w - 1 := by
  apply Nat.eq_of_testBit_eq
  intro i
  rw [Nat.testBit_mod_two_pow, Nat.testBit_or, testBit_bnot, Nat.testBit_two_pow_sub_one]
  cases decide (i < w) <;> simp

theorem subset_iff_testBit (a b : Nat) :
    subset a b ↔ ∀ i, a.testBit i = true → b.testBit i = true := by
  unfold subset
  constructor
  · intro h i hi
    have := congrArg (fun x => x.testBit i) h
    simp only [Nat.testBit_and, hi, Bool.true_and] at this
    exact this
  · intro h
    apply Nat.eq_of_testBit_eq
    intro i
    rw [Nat.testBit_and]
    cases ha : a.testBit i
    · simp
    · simp [h i ha]

theorem compose_lt (x : Nat) (d : Ctrl) : compose x d < 2 ^ 32 := by
  unfold compose
  exact Nat.mod_lt _ (by decide)

theorem testBit_compose (x : Nat) (d : Ctrl) (i : Nat) :
    (compose x d).testBit i
      = (decide (i < 32) && ((x.testBit i || d.set.testBit i) && d.clr.testBit i)) := by
  simp only [compose, u32, Nat.testBit_mod_two_pow, Nat.testBit_and, Nat.testBit_or]
  cases decide (i < 32) <;> simp

theorem testBit_set_lt (d : Ctrl) (i : Nat) (h : d.set.testBit i = true) : i < 32 := by
  simp only [Ctrl.set, u32, Nat.testBit_mod_two_pow] at h
  simp at h
  exact h.1

theorem testBit_clr_lt (d : Ctrl) (i : Nat) (h : d.clr.testBit i = true) : i < 32 := by
  simp only [Ctrl.clr, u32, Nat.testBit_mod_two_pow] at h
  simp at h
  exact h.1

theorem compose_eq (x : Nat) (d : Ctrl) : compose x d = (x ||| d.set) &&& d.clr := by
  apply Nat.eq_of_testBit_eq
  intro i
  rw [testBit_compose, Nat.testBit_and, Nat.testBit_or]
  cases hc : d.clr.testBit i
  · simp
  · have := testBit_clr_lt d i hc
    simp [this]

theorem compose_mandatory (x : Nat) (d : Ctrl) (h : subset d.set d.clr) :
    compose x d &&& d.set = d.set := by
  rw [subset_iff_testBit] at h
  apply Nat.eq_of_testBit_eq
  intro i
  rw [Nat.testBit_and, testBit_compose]
  cases hs : d.set.testBit i
  · simp
  · have := testBit_set_lt d i hs
    simp [this, h i hs]

theorem compose_allowed (x : Nat) (d : Ctrl) : compose x d &&& bnot 32 d.clr = 0 := by
  apply Nat.eq_of_testBit_eq
  intro i
  rw [Nat.testBit_and, testBit_compose, testBit_bnot, Nat.zero_testBit]
  cases d.clr.testBit i <;> simp

theorem mod_word (w x : Nat) (hw : 32 ≤ w) (hx : x < 2 ^ 32) : x % 2 ^ w = x := by
  apply Nat.mod_eq_of_lt
  exact Nat.lt_of_lt_of_le hx (Nat.pow_le_pow_right (by decide) hw)

theorem ctor_events (w : Nat) (k : Consts) (s : Machine) (self esp cr3 eptp : Nat)
    (hrun : s.halted = false) :
    run_events s (Vmcs_ctor w k s self esp cr3 eptp)
      = ctor_head w k s self cr3 eptp
          ++ (if s.get_cr0 w &&& k.CR0_TS = 0 then [] else ctor_tail w k esp) := by
  unfold run_events Vmcs_ctor
  simp only [hrun, Bool.false_eq_true, if_false]
  split_ifs <;> simp

theorem written_head (w : Nat) (k : Consts) (s : Machine) (self cr3 eptp : Nat) (tl : List Event) :
    written Encoding.PIN_EXEC_CTRL (ctor_head w k s self cr3 eptp ++ tl)
        = some (pin_value k s.store % 2 ^ w) ∧
    written Encoding.EXI_CONTROLS (ctor_head w k s self cr3 eptp ++ tl)
        = some (exi_value k s.store % 2 ^ w) ∧
    written Encoding.ENT_CONTROLS (ctor_head w k s self cr3 eptp ++ tl)
        = some (ent_value s.store % 2 ^ w) := by
  simp [written, ctor_head, wr, List.findSome?]

/-! ## `Vmcs::Vmcs`: results -/

/-- C1: for each of the pin-based, exit and entry descriptors, if it has `set ⊆ clr` then the
value the constructor writes to its control field is `(desired | set) & clr` for the desired
pattern `PIN_EXTINT | PIN_NMI`, `EXI_INTA` or `0`, and that value has every mandatory bit
set (`value & set = set`) and no disallowed bit set (`value & ~clr = 0`). -/
theorem ctor_controls_legal (w : Nat) (hw : 32 ≤ w) (k : Consts) (s : Machine)
    (self esp cr3 eptp : Nat) (hrun : s.halted = false) :
    (subset s.store.ctrl_pin.set s.store.ctrl_pin.clr →
      written Encoding.PIN_EXEC_CTRL (run_events s (Vmcs_ctor w k s self esp cr3 eptp))
        = some (pin_value k s.store) ∧
      pin_value k s.store
        = (( k.PIN_EXTINT ||| k.PIN_NMI) ||| s.store.ctrl_pin.set) &&& s.store.ctrl_pin.clr ∧
      pin_value k s.store &&& s.store.ctrl_pin.set = s.store.ctrl_pin.set ∧
      pin_value k s.store &&& bnot 32 s.store.ctrl_pin.clr = 0) ∧
    (subset s.store.ctrl_exi.set s.store.ctrl_exi.clr →
      written Encoding.EXI_CONTROLS (run_events s (Vmcs_ctor w k s self esp cr3 eptp))
        = some (exi_value k s.store) ∧
      exi_value k s.store = ( k.EXI_INTA ||| s.store.ctrl_exi.set) &&& s.store.ctrl_exi.clr ∧
      exi_value k s.store &&& s.store.ctrl_exi.set = s.store.ctrl_exi.set ∧
      exi_value k s.store &&& bnot 32 s.store.ctrl_exi.clr = 0) ∧
    (subset s.store.ctrl_ent.set s.store.ctrl_ent.clr →
      written Encoding.ENT_CONTROLS (run_events s (Vmcs_ctor w k s self esp cr3 eptp))
        = some (ent_value s.store) ∧
      ent_value s.store = (0 ||| s.store.ctrl_ent.set) &&& s.store.ctrl_ent.clr ∧
      ent_value s.store &&& s.store.ctrl_ent.set = s.store.ctrl_ent.set ∧
      ent_value s.store &&& bnot 32 s.store.ctrl_ent.clr = 0) := by
  rw [ctor_events w k s self esp cr3 eptp hrun]
  obtain ⟨h1, h2, h3⟩ := written_head w k s self cr3 eptp
    (if s.get_cr0 w &&& k.CR0_TS = 0 then [] else ctor_tail w k esp)
  rw [h1, h2, h3]
  have e1 : pin_value k s.store % 2 ^ w = pin_value k s.store :=
    mod_word w _ hw (compose_lt _ _)
  have e2 : exi_value k s.store % 2 ^ w = exi_value k s.store :=
    mod_word w _ hw (compose_lt _ _)
  have e3 : ent_value s.store % 2 ^ w = ent_value s.store :=
    mod_word w _ hw (compose_lt _ _)
  rw [e1, e2, e3]
  exact ⟨fun hpin => ⟨rfl, compose_eq _ _, compose_mandatory _ _ hpin, compose_allowed _ _⟩,
    fun hexi => ⟨rfl, compose_eq _ _, compose_mandatory _ _ hexi, compose_allowed _ _⟩,
    fun hent => ⟨rfl, compose_eq _ _, compose_mandatory _ _ hent, compose_allowed _ _⟩⟩

/-- C1, witness: the sample machine after `Vmcs::init`, whose three descriptors have
`set ⊆ clr`. -/
theorem ctor_controls_legal_witness :
    (written Encoding.PIN_EXEC_CTRL
        (run_events Machine.sample (Vmcs_ctor 32 ia32 Machine.sample 0x5000 0x9000 0x3000 0x7000))
        = some (pin_value ia32 Machine.sample.store) ∧
      pin_value ia32 Machine.sample.store
        = (( ia32.PIN_EXTINT ||| ia32.PIN_NMI) ||| Machine.sample.store.ctrl_pin.set)
            &&& Machine.sample.store.ctrl_pin.clr ∧
      pin_value ia32 Machine.sample.store &&& Machine.sample.store.ctrl_pin.set
        = Machine.sample.store.ctrl_pin.set ∧
      pin_value ia32 Machine.sample.store &&& bnot 32 Machine.sample.store.ctrl_pin.clr = 0) ∧
    (written Encoding.EXI_CONTROLS
        (run_events Machine.sample (Vmcs_ctor 32 ia32 Machine.sample 0x5000 0x9000 0x3000 0x7000))
        = some (exi_value ia32 Machine.sample.store) ∧
      exi_value ia32 Machine.sample.store
        = ( ia32.EXI_INTA ||| Machine.sample.store.ctrl_exi.set)
            &&& Machine.sample.store.ctrl_exi.clr ∧
      exi_value ia32 Machine.sample.store &&& Machine.sample.store.ctrl_exi.set
        = Machine.sample.store.ctrl_exi.set ∧
      exi_value ia32 Machine.sample.store &&& bnot 32 Machine.sample.store.ctrl_exi.clr = 0) ∧
    (written Encoding.ENT_CONTROLS
        (run_events Machine.sample (Vmcs_ctor 32 ia32 Machine.sample 0x5000 0x9000 0x3000 0x7000))
        = some (ent_value Machine.sample.store) ∧
      ent_value Machine.sample.store
        = (0 ||| Machine.sample.store.ctrl_ent.set) &&& Machine.sample.store.ctrl_ent.clr ∧
      ent_value Machine.sample.store &&& Machine.sample.store.ctrl_ent.set
        = Machine.sample.store.ctrl_ent.set ∧
      ent_value Machine.sample.store &&& bnot 32 Machine.sample.store.ctrl_ent.clr = 0) :=
  ⟨(ctor_controls_legal 32 (by decide) ia32 Machine.sample 0x5000 0x9000 0x3000 0x7000
      (by decide)).1 (by decide),
    (ctor_controls_legal 32 (by decide) ia32 Machine.sample 0x5000 0x9000 0x3000 0x7000
      (by decide)).2.1 (by decide),
    (ctor_controls_legal 32 (by decide) ia32 Machine.sample 0x5000 0x9000 0x3000 0x7000
      (by decide)).2.2 (by decide)⟩

/-- C10, counterexample: a constructor run that completes on the sample machine writes
neither processor-based control field. -/
theorem ctor_skips_cpu_controls :
    (Vmcs_ctor 32 ia32 Machine.sample 0x5000 0x9000 0x3000 0x7000).halted = false ∧
    written Encoding.CPU_EXEC_CTRL0
      (run_events Machine.sample (Vmcs_ctor 32 ia32 Machine.sample 0x5000 0x9000 0x3000 0x7000))
      = none ∧
    written Encoding.CPU_EXEC_CTRL1
      (run_events Machine.sample (Vmcs_ctor 32 ia32 Machine.sample 0x5000 0x9000 0x3000 0x7000))
      = none := by
  decide

/-- C10, amended: every constructor run starts with `clear()` and `make_current()` and then
writes the pin-based, exit and entry control fields, each with `(desired | set) & clr` from
its descriptor; it writes neither the primary nor the secondary processor-based control
field. -/
theorem ctor_populates_controls (w : Nat) (hw : 32 ≤ w) (k : Consts) (s : Machine)
    (self esp cr3 eptp : Nat) (hrun : s.halted = false) :
    ∃ rest, run_events s (Vmcs_ctor w k s self esp cr3 eptp)
        = Event.rev self s.store.revision :: Event.clear self :: Event.make_current self :: rest ∧
      written Encoding.PIN_EXEC_CTRL rest
        = some ((( k.PIN_EXTINT ||| k.PIN_NMI) ||| s.store.ctrl_pin.set) &&& s.store.ctrl_pin.clr) ∧
      written Encoding.EXI_CONTROLS rest
        = some (( k.EXI_INTA ||| s.store.ctrl_exi.set) &&& s.store.ctrl_exi.clr) ∧
      written Encoding.ENT_CONTROLS rest
        = some ((0 ||| s.store.ctrl_ent.set) &&& s.store.ctrl_ent.clr) ∧
      written Encoding.CPU_EXEC_CTRL0 rest = none ∧
      written Encoding.CPU_EXEC_CTRL1 rest = none := by
  rw [ctor_events w k s self esp cr3 eptp hrun]
  have e1 : pin_value k s.store % 2 ^ w = pin_value k s.store :=
    mod_word w _ hw (compose_lt _ _)
  have e2 : exi_value k s.store % 2 ^ w = exi_value k s.store :=
    mod_word w _ hw (compose_lt _ _)
  have e3 : ent_value s.store % 2 ^ w = ent_value s.store :=
    mod_word w _ hw (compose_lt _ _)
  have p1 : pin_value k s.store
      = (( k.PIN_EXTINT ||| k.PIN_NMI) ||| s.store.ctrl_pin.set) &&& s.store.ctrl_pin.clr :=
    compose_eq _ _
  have p2 : exi_value k s.store = ( k.EXI_INTA ||| s.store.ctrl_exi.set) &&& s.store.ctrl_exi.clr :=
    compose_eq _ _
  have p3 : ent_value s.store = (0 ||| s.store.ctrl_ent.set) &&& s.store.ctrl_ent.clr :=
    compose_eq _ _
  rw [← p1, ← p2, ← p3]
  refine ⟨_, rfl, ?_⟩
  split_ifs <;>
    simp [written, ctor_tail, wr, List.findSome?, e1, e2, e3]

/-- C10, witness of the amended claim: a constructor run on the sample machine. -/
theorem ctor_populates_controls_witness :
    ∃ rest, run_events Machine.sample (Vmcs_ctor 32 ia32 Machine.sample 0x5000 0x9000 0x3000 0x7000)
        = Event.rev 0x5000 Machine.sample.store.revision :: Event.clear 0x5000
            :: Event.make_current 0x5000 :: rest ∧
      written Encoding.PIN_EXEC_CTRL rest
        = some ((( ia32.PIN_EXTINT ||| ia32.PIN_NMI) ||| Machine.sample.store.ctrl_pin.set)
            &&& Machine.sample.store.ctrl_pin.clr) ∧
      written Encoding.EXI_CONTROLS rest
        = some (( ia32.EXI_INTA ||| Machine.sample.store.ctrl_exi.set)
            &&& Machine.sample.store.ctrl_exi.clr) ∧
      written Encoding.ENT_CONTROLS rest
        = some ((0 ||| Machine.sample.store.ctrl_ent.set) &&& Machine.sample.store.ctrl_ent.clr) ∧
      written Encoding.CPU_EXEC_CTRL0 rest = none ∧
      written Encoding.CPU_EXEC_CTRL1 rest = none :=
  ctor_populates_controls 32 (by decide) ia32 Machine.sample 0x5000 0x9000 0x3000 0x7000
    (by decide)

theorem ctor_ok (w : Nat) (k : Consts) (s : Machine) (a : Args)
    (hrun : s.halted = false) (hts : s.get_cr0 w &&& k.CR0_TS ≠ 0) :
    Vmcs_ctor w k s a.self a.esp a.cr3 a.eptp =
      { s with current := some a.self,
               vpid_ctr := next_vpid s.vpid_ctr,
               trace := s.trace ++ (ctor_head w k s a.self a.cr3 a.eptp ++ ctor_tail w k a.esp) } := by
  unfold Vmcs_ctor
  simp [hrun, hts]

theorem vpids_ctor (w : Nat) (hw : 32 ≤ w) (k : Consts) (s : Machine) (a : Args) :
    vpids (ctor_head w k s a.self a.cr3 a.eptp ++ ctor_tail w k a.esp) = [next_vpid s.vpid_ctr] := by
  have e : next_vpid s.vpid_ctr % 2 ^ w = next_vpid s.vpid_ctr :=
    mod_word w _ hw (Nat.mod_lt _ (by decide))
  simp [vpids, ctor_head, ctor_tail, wr, List.filterMap, e]

theorem vpids_append (l1 l2 : List Event) : vpids (l1 ++ l2) = vpids l1 ++ vpids l2 := by
  simp [vpids, List.filterMap_append]

theorem construct_all_spec (w : Nat) (hw : 32 ≤ w) (k : Consts) (l : List Args) :
    ∀ s : Machine, s.halted = false → s.get_cr0 w &&& k.CR0_TS ≠ 0 → s.vpid_ctr < 2 ^ 32 →
      ∃ evs, (construct_all w k s l).trace = s.trace ++ evs ∧
        vpids evs = (List.range l.length).map (fun i => (s.vpid_ctr + (i + 1)) % 2 ^ 32) ∧
        (construct_all w k s l).vpid_ctr = (s.vpid_ctr + l.length) % 2 ^ 32 ∧
        (construct_all w k s l).halted = false := by
  induction l with
  | nil =>
    intro s hrun _ hc
    refine ⟨[], by simp [construct_all], by simp [vpids], ?_, by simpa [construct_all] using hrun⟩
    simp only [construct_all, List.foldl_nil, List.length_nil, Nat.add_zero]
    exact (Nat.mod_eq_of_lt hc).symm
  | cons a l ih =>
    intro s hrun hts hc
    have hstep := ctor_ok w k s a hrun hts
    have hfold : construct_all w k s (a :: l)
        = construct_all w k (Vmcs_ctor w k s a.self a.esp a.cr3 a.eptp) l := by
      simp [construct_all]
    have h1 : (Vmcs_ctor w k s a.self a.esp a.cr3 a.eptp).halted = false := by
      rw [hstep]; exact hrun
    have h2 : (Vmcs_ctor w k s a.self a.esp a.cr3 a.eptp).get_cr0 w &&& k.CR0_TS ≠ 0 := by
      rw [hstep]; exact hts
    have h3 : (Vmcs_ctor w k s a.self a.esp a.cr3 a.eptp).vpid_ctr = (s.vpid_ctr + 1) % 2 ^ 32 := by
      rw [hstep]; rfl
    have h4 : (Vmcs_ctor w k s a.self a.esp a.cr3 a.eptp).trace
        = s.trace ++ (ctor_head w k s a.self a.cr3 a.eptp ++ ctor_tail w k a.esp) := by
      rw [hstep]
    have h3lt : (Vmcs_ctor w k s a.self a.esp a.cr3 a.eptp).vpid_ctr < 2 ^ 32 := by
      rw [h3]; exact Nat.mod_lt _ (by decide)
    obtain ⟨evs, t1, t2, t3, t4⟩ := ih _ h1 h2 h3lt
    refine ⟨(ctor_head w k s a.self a.cr3 a.eptp ++ ctor_tail w k a.esp) ++ evs, ?_, ?_, ?_, ?_⟩
    · rw [hfold, t1, h4, List.append_assoc]
    · rw [vpids_append, vpids_ctor w hw, t2, h3, List.length_cons, List.range_succ_eq_map,
        List.map_cons, List.map_map]
      simp only [next_vpid, u32, List.singleton_append, List.cons.injEq, Nat.zero_add, true_and]
      apply List.map_congr_left
      intro i _
      simp only [Function.comp, Nat.succ_eq_add_one]
      omega
    · rw [hfold, t3, h3, List.length_cons]
      omega
    · rw [hfold]; exact t4

theorem run_events_of_trace (s t : Machine) (evs : List Event) (h : t.trace = s.trace ++ evs) :
    run_events s t = evs := by
  simp [run_events, h]

/-- C9, counterexample: with the counter at `2 ^ 32 - 1`, one construction that runs to
completion writes identifier `0` and leaves the counter at `0`, below its previous value. -/
theorem ctor_counter_wraps :
    (construct_all 32 ia32 Machine.last_vpid [Args.sample]).halted = false ∧
    vpids (run_events Machine.last_vpid (construct_all 32 ia32 Machine.last_vpid [Args.sample]))
      = [0] ∧
    (construct_all 32 ia32 Machine.last_vpid [Args.sample]).vpid_ctr = 0 ∧
    (construct_all 32 ia32 Machine.last_vpid [Args.sample]).vpid_ctr
      < Machine.last_vpid.vpid_ctr := by
  decide

/-- C9, amended: for a counter value `c` and `N < 2 ^ 32` constructions run one after
another, each running to completion, the `j`-th construction leaves the counter at
`(c + j) mod 2 ^ 32` and writes that value to its `VPID` field, and the `N` identifiers are
pairwise distinct; the counter never decreases as long as `c + N < 2 ^ 32`. -/
theorem construct_all_identifiers (w : Nat) (hw : 32 ≤ w) (k : Consts) (s : Machine)
    (l : List Args) (hrun : s.halted = false) (hts : s.get_cr0 w &&& k.CR0_TS ≠ 0)
    (hc : s.vpid_ctr < 2 ^ 32) (hN : l.length < 2 ^ 32) :
    vpids (run_events s (construct_all w k s l))
        = (List.range l.length).map (fun i => (s.vpid_ctr + (i + 1)) % 2 ^ 32) ∧
      (∀ j, j ≤ l.length →
        (construct_all w k s (l.take j)).vpid_ctr = (s.vpid_ctr + j) % 2 ^ 32) ∧
      (vpids (run_events s (construct_all w k s l))).Nodup ∧
      (s.vpid_ctr + l.length < 2 ^ 32 → ∀ i j, i ≤ j → j ≤ l.length →
        (construct_all w k s (l.take i)).vpid_ctr ≤ (construct_all w k s (l.take j)).vpid_ctr) := by
  obtain ⟨evs, t1, t2, _, _⟩ := construct_all_spec w hw k l s hrun hts hc
  have hev := run_events_of_trace s _ evs t1
  have hctr : ∀ j, j ≤ l.length →
      (construct_all w k s (l.take j)).vpid_ctr = (s.vpid_ctr + j) % 2 ^ 32 := by
    intro j hj
    obtain ⟨_, _, _, u3, _⟩ := construct_all_spec w hw k (l.take j) s hrun hts hc
    rw [u3, List.length_take, Nat.min_eq_left hj]
  refine ⟨by rw [hev, t2], hctr, ?_, ?_⟩
  · rw [hev, t2]
    apply List.Nodup.map_on _ (List.nodup_range _)
    intro x hx y hy hxy
    rw [List.mem_range] at hx hy
    simp only at hxy
    omega
  · intro hle i j hij hj
    rw [hctr i (Nat.le_trans hij hj), hctr j hj]
    omega

/-- C9, witness of the amended claim: two constructions on the sample machine, whose CR0
has `CR0_TS` set and whose counter is `0`. -/
theorem construct_all_identifiers_witness :
    vpids (run_events Machine.sample (construct_all 32 ia32 Machine.sample [Args.sample, Args.sample]))
        = (List.range [Args.sample, Args.sample].length).map
            (fun i => (Machine.sample.vpid_ctr + (i + 1)) % 2 ^ 32) ∧
      (∀ j, j ≤ [Args.sample, Args.sample].length →
        (construct_all 32 ia32 Machine.sample ([Args.sample, Args.sample].take j)).vpid_ctr
          = (Machine.sample.vpid_ctr + j) % 2 ^ 32) ∧
      (vpids (run_events Machine.sample
        (construct_all 32 ia32 Machine.sample [Args.sample, Args.sample]))).Nodup ∧
      (Machine.sample.vpid_ctr + [Args.sample, Args.sample].length < 2 ^ 32 → ∀ i j, i ≤ j →
        j ≤ [Args.sample, Args.sample].length →
        (construct_all 32 ia32 Machine.sample ([Args.sample, Args.sample].take i)).vpid_ctr
          ≤ (construct_all 32 ia32 Machine.sample ([Args.sample, Args.sample].take j)).vpid_ctr) :=
  construct_all_identifiers 32 (by decide) ia32 Machine.sample [Args.sample, Args.sample]
    (by decide) (by decide) (by decide) (by decide)

/-! ## `Vmcs::init`: lemmas -/

theorem Ctrl.or_set_set (c : Ctrl) (x : Nat) : (c.or_set x).set = (c.set ||| x) % 2 ^ 32 := by
  simp only [Ctrl.or_set, Ctrl.set, Ctrl.clr, u32]
  omega

theorem Ctrl.or_set_clr (c : Ctrl) (x : Nat) : (c.or_set x).clr = c.clr := by
  simp only [Ctrl.or_set, Ctrl.set, Ctrl.clr, u32]
  omega

theorem Ctrl.and_clr_set (c : Ctrl) (x : Nat) : (c.and_clr x).set = c.set := by
  simp only [Ctrl.and_clr, Ctrl.set, Ctrl.clr, u32]
  omega

theorem Ctrl.and_clr_clr (c : Ctrl) (x : Nat) : (c.and_clr x).clr = (c.clr &&& x) % 2 ^ 32 := by
  simp only [Ctrl.and_clr, Ctrl.set, Ctrl.clr, u32]
  omega

/-- A descriptor that fits its 64-bit storage is determined by its two halves. -/
theorem Ctrl.eq_of_halves (a b : Ctrl) (ha : a.val < 2 ^ 64) (hb : b.val < 2 ^ 64)
    (hs : a.set = b.set) (hc : a.clr = b.clr) : a = b := by
  cases a with
  | mk av =>
    cases b with
    | mk bv =>
      simp only [Ctrl.set, Ctrl.clr, u32] at hs hc
      simp only at ha hb
      congr 1
      omega

theorem Ctrl.or_set_val_lt (c : Ctrl) (x : Nat) : (c.or_set x).val < 2 ^ 64 := by
  simp only [Ctrl.or_set, Ctrl.set, Ctrl.clr, u32]
  omega

theorem Ctrl.and_clr_val_lt (c : Ctrl) (x : Nat) : (c.and_clr x).val < 2 ^ 64 := by
  simp only [Ctrl.and_clr, Ctrl.set, Ctrl.clr, u32]
  omega

theorem restrict_cpu1_set (k : Consts) (env : Env) (ev : Nat) (c : Ctrl) :
    (restrict_cpu1 k env ev c).set = c.set := by
  unfold restrict_cpu1
  simp only
  split_ifs <;> simp [Ctrl.and_clr_set]

theorem Ctrl.and_clr_testBit (c : Ctrl) (x i : Nat) :
    (c.and_clr x).clr.testBit i = (c.clr.testBit i && x.testBit i) := by
  rw [Ctrl.and_clr_clr, Nat.testBit_mod_two_pow, Nat.testBit_and]
  cases hc : c.clr.testBit i
  · simp
  · simp [testBit_clr_lt c i hc]

theorem restrict_cpu1_testBit (k : Consts) (env : Env) (ev : Nat) (c : Ctrl) (i : Nat) :
    (restrict_cpu1 k env ev c).clr.testBit i
      = (c.clr.testBit i
          && !((env.noept || !ev.testBit k.invept) && k.CPU_EPT.testBit i)
          && !((env.novpid || !ev.testBit k.invvpid) && k.CPU_VPID.testBit i)) := by
  unfold restrict_cpu1
  simp only
  cases hc : c.clr.testBit i
  · split_ifs <;> simp [Ctrl.and_clr_testBit, hc]
  · have hi : i < 32 := testBit_clr_lt c i hc
    split_ifs with h1 h2 h2
    · simp [Ctrl.and_clr_testBit, testBit_bnot, u32, hc, h1, h2, hi]
    · simp only [Bool.not_eq_true] at h2
      simp [Ctrl.and_clr_testBit, testBit_bnot, u32, hc, h1, h2, hi]
    · simp only [Bool.not_eq_true] at h1
      simp [Ctrl.and_clr_testBit, testBit_bnot, u32, hc, h1, h2, hi]
    · simp only [Bool.not_eq_true] at h1 h2
      simp [hc, h1, h2]

theorem restrict_cpu1_val_lt (k : Consts) (env : Env) (ev : Nat) (c : Ctrl) (h : c.val < 2 ^ 64) :
    (restrict_cpu1 k env ev c).val < 2 ^ 64 := by
  unfold restrict_cpu1
  simp only
  split_ifs <;> first | exact Ctrl.and_clr_val_lt _ _ | exact h

theorem restrict_eq (k : Consts) (env : Env) (st : Store) :
    restrict k env st
      = { st with ctrl_cpu1 := restrict_cpu1 k env st.ept_vpid st.ctrl_cpu1 } := by
  unfold restrict restrict_cpu1 Store.invept Store.invvpid
  simp only
  split_ifs <;> rfl

theorem derive_eq (w : Nat) (k : Consts) (env : Env) (st : Store) :
    derive w k env st =
      { read_caps w k env st with
        ctrl_cpu0 := (read_caps w k env st).ctrl_cpu0.or_set
          ( k.CPU_HLT ||| k.CPU_IO ||| k.CPU_SECONDARY),
        ept_vpid := (read_ept_vpid k env (read_secondary k env (read_caps w k env st))).ept_vpid,
        ctrl_cpu1 := restrict_cpu1 k env
          (read_ept_vpid k env (read_secondary k env (read_caps w k env st))).ept_vpid
          ((read_secondary k env (read_caps w k env st)).ctrl_cpu1.or_set k.CPU_VPID) } := by
  unfold derive
  rw [restrict_eq]
  unfold augment read_ept_vpid read_secondary
  simp only [has_ept, has_vpid]
  split_ifs <;> rfl

theorem and_ne_zero_of_subset (x y m : Nat) (h : subset x y) (hx : x &&& m ≠ 0) : y &&& m ≠ 0 := by
  intro hy
  apply hx
  unfold subset at h
  rw [← h, Nat.land_assoc, hy, Nat.and_zero]

theorem restrict_cpu1_subset (k : Consts) (env : Env) (ev : Nat) (c : Ctrl) :
    subset (restrict_cpu1 k env ev c).clr c.clr := by
  rw [subset_iff_testBit]
  intro i hi
  rw [restrict_cpu1_testBit] at hi
  simp only [Bool.and_eq_true] at hi
  exact hi.1.1

theorem or_or_mod (a v : Nat) : ((a ||| v) % 2 ^ 32 ||| v) % 2 ^ 32 = (a ||| v) % 2 ^ 32 := by
  apply Nat.eq_of_testBit_eq
  intro i
  simp only [Nat.testBit_mod_two_pow, Nat.testBit_or]
  cases decide (i < 32) <;> cases a.testBit i <;> cases v.testBit i <;> rfl

theorem restrict_cpu1_idem (k : Consts) (env : Env) (ev : Nat) (c : Ctrl) :
    restrict_cpu1 k env ev ((restrict_cpu1 k env ev (c.or_set k.CPU_VPID)).or_set k.CPU_VPID)
      = restrict_cpu1 k env ev (c.or_set k.CPU_VPID) := by
  apply Ctrl.eq_of_halves
  · exact restrict_cpu1_val_lt _ _ _ _ (Ctrl.or_set_val_lt _ _)
  · exact restrict_cpu1_val_lt _ _ _ _ (Ctrl.or_set_val_lt _ _)
  · rw [restrict_cpu1_set, Ctrl.or_set_set, restrict_cpu1_set, Ctrl.or_set_set, or_or_mod]
  · apply Nat.eq_of_testBit_eq
    intro i
    rw [restrict_cpu1_testBit, Ctrl.or_set_clr, restrict_cpu1_testBit]
    cases (c.or_set k.CPU_VPID).clr.testBit i <;>
      cases ((env.noept || !ev.testBit k.invept) && k.CPU_EPT.testBit i) <;>
      cases ((env.novpid || !ev.testBit k.invvpid) && k.CPU_VPID.testBit i) <;> rfl

theorem read_secondary_cpu1 (k : Consts) (env : Env) (st : Store) :
    (read_secondary k env st).ctrl_cpu1
      = if has_secondary k st then { val := Msr.read u64 env Msr.Register.IA32_VMX_CTRL_CPU1 }
        else st.ctrl_cpu1 := by
  unfold read_secondary
  split_ifs <;> rfl

theorem read_secondary_ept_vpid (k : Consts) (env : Env) (st : Store) :
    (read_secondary k env st).ept_vpid = st.ept_vpid := by
  unfold read_secondary
  split_ifs <;> rfl

theorem read_ept_vpid_val (k : Consts) (env : Env) (st : Store) :
    (read_ept_vpid k env st).ept_vpid
      = if (decide (st.ctrl_cpu1.clr &&& k.CPU_EPT ≠ 0) || decide (st.ctrl_cpu1.clr &&& k.CPU_VPID ≠ 0))
        then Msr.read u64 env Msr.Register.IA32_VMX_EPT_VPID else st.ept_vpid := by
  unfold read_ept_vpid has_ept has_vpid
  split_ifs <;> rfl

/-- The secondary descriptor and the EPT/VPID report that a second derivation starts from
lead to the same two values again. -/
theorem derive_tail_idem (k : Consts) (env : Env) (hs : Bool) (r1 c0 : Ctrl) (ee e0 : Nat)
    (base c1 base2 : Ctrl) (ev1 ev2 : Nat)
    (hbase : base = if hs then r1 else c0)
    (hev1 : ev1 = if (decide (base.clr &&& k.CPU_EPT ≠ 0) || decide (base.clr &&& k.CPU_VPID ≠ 0))
      then ee else e0)
    (hc1 : c1 = restrict_cpu1 k env ev1 (base.or_set k.CPU_VPID))
    (hbase2 : base2 = if hs then r1 else c1)
    (hev2 : ev2 = if (decide (base2.clr &&& k.CPU_EPT ≠ 0) || decide (base2.clr &&& k.CPU_VPID ≠ 0))
      then ee else ev1) :
    ev2 = ev1 ∧ restrict_cpu1 k env ev2 (base2.or_set k.CPU_VPID) = c1 := by
  have hev : ev2 = ev1 := by
    cases hs with
    | true =>
      simp only [if_true] at hbase hbase2
      rw [hbase2] at hev2
      rw [hbase] at hev1
      rw [hev2]
      split_ifs with h
      · rw [hev1, if_pos h]
      · rfl
    | false =>
      simp only [Bool.false_eq_true, if_false] at hbase hbase2
      rw [hbase2] at hev2
      rw [hev2]
      split_ifs with h
      · have hsub : subset c1.clr base.clr := by
          have := restrict_cpu1_subset k env ev1 (base.or_set k.CPU_VPID)
          rw [Ctrl.or_set_clr] at this
          rw [hc1]
          exact this
        have h0 : (decide (base.clr &&& k.CPU_EPT ≠ 0) || decide (base.clr &&& k.CPU_VPID ≠ 0))
            = true := by
          simp only [Bool.or_eq_true, decide_eq_true_eq] at h ⊢
          rcases h with h | h
          · exact Or.inl (and_ne_zero_of_subset _ _ _ hsub h)
          · exact Or.inr (and_ne_zero_of_subset _ _ _ hsub h)
        rw [hev1, if_pos h0]
      · rfl
  refine ⟨hev, ?_⟩
  rw [hev]
  cases hs with
  | true =>
    simp only [if_true] at hbase hbase2
    rw [hbase2, hc1, hbase]
  | false =>
    simp only [Bool.false_eq_true, if_false] at hbase hbase2
    rw [hbase2, hc1]
    exact restrict_cpu1_idem k env ev1 base

theorem derive_idem (w : Nat) (k : Consts) (env : Env) (st : Store) :
    derive w k env (derive w k env st) = derive w k env st := by
  rw [derive_eq w k env (derive w k env st)]
  generalize hX : derive w k env st = X
  rw [derive_eq] at hX
  have hcaps : read_caps w k env X
      = { read_caps w k env st with ctrl_cpu1 := X.ctrl_cpu1, ept_vpid := X.ept_vpid } := by
    subst hX
    rfl
  have hsec : has_secondary k (read_caps w k env X) = has_secondary k (read_caps w k env st) := by
    rw [hcaps]
    rfl
  have hx1 : X.ctrl_cpu1 = restrict_cpu1 k env
      (read_ept_vpid k env (read_secondary k env (read_caps w k env st))).ept_vpid
      ((read_secondary k env (read_caps w k env st)).ctrl_cpu1.or_set k.CPU_VPID) := by
    subst hX
    rfl
  have hx2 : X.ept_vpid
      = (read_ept_vpid k env (read_secondary k env (read_caps w k env st))).ept_vpid := by
    subst hX
    rfl
  have hc1 : (read_caps w k env X).ctrl_cpu1 = X.ctrl_cpu1 := by rw [hcaps]
  have he1 : (read_caps w k env X).ept_vpid = X.ept_vpid := by rw [hcaps]
  have hc0 : (read_caps w k env st).ctrl_cpu1 = st.ctrl_cpu1 := rfl
  have he0 : (read_caps w k env st).ept_vpid = st.ept_vpid := rfl
  obtain ⟨g1, g2⟩ := derive_tail_idem k env (has_secondary k (read_caps w k env st))
    { val := Msr.read u64 env Msr.Register.IA32_VMX_CTRL_CPU1 } st.ctrl_cpu1
    (Msr.read u64 env Msr.Register.IA32_VMX_EPT_VPID) st.ept_vpid
    (read_secondary k env (read_caps w k env st)).ctrl_cpu1
    X.ctrl_cpu1
    (read_secondary k env (read_caps w k env X)).ctrl_cpu1
    X.ept_vpid
    (read_ept_vpid k env (read_secondary k env (read_caps w k env X))).ept_vpid
    (by rw [read_secondary_cpu1, hc0])
    (by rw [hx2, read_ept_vpid_val, read_secondary_ept_vpid, he0])
    (by rw [hx1, hx2])
    (by rw [read_secondary_cpu1, hsec, hc1])
    (by rw [read_ept_vpid_val, read_secondary_ept_vpid, he1])
  rw [g1] at g2
  rw [g1, g2, hcaps]
  subst hX
  rfl

theorem init_completes (w : Nat) (k : Consts) (env : Env) (s : Machine)
    (hc : completes env s = true) :
    Vmcs_init w k env s =
      { s with
        store := derive w k env s.store,
        cr0 := apply_fix w s.cr0 (derive w k env s.store).fix_cr0,
        cr4 := apply_fix w s.cr4 (derive w k env s.store).fix_cr4,
        trace := s.trace ++
          [ Event.new_root,
            Event.print (derive w k env s.store).revision (derive w k env s.store).ctrl_cpu0.clr
              (derive w k env s.store).ctrl_cpu1.clr (has_vpid k (derive w k env s.store))
              (has_ept k (derive w k env s.store)) ] } := by
  unfold completes at hc
  simp only [Bool.and_eq_true, Bool.not_eq_true', Bool.not_eq_eq_eq_not, Bool.not_true] at hc
  obtain ⟨⟨h1, h2⟩, h3⟩ := hc
  unfold Vmcs_init
  simp [h1, h2, h3]

theorem init_early (w : Nat) (k : Consts) (env : Env) (s : Machine)
    (hc : completes env s = false) :
    (Vmcs_init w k env s).store = s.store ∧ (Vmcs_init w k env s).halted = s.halted := by
  unfold Vmcs_init
  split_ifs with h1 h2 h3
  · exact ⟨rfl, rfl⟩
  · exact ⟨rfl, rfl⟩
  · exact ⟨rfl, rfl⟩
  · exfalso
    unfold completes at hc
    simp only [Bool.not_eq_true] at h1 h3
    simp only [Bool.not_eq_true, Bool.not_eq_true', Bool.not_eq_false] at h2
    simp [h1, h2, h3] at hc

/-- Both early exits leave the machine as it was, except that the first one records the
call of `Hip::disfeature`. -/
theorem init_early_exit (w : Nat) (k : Consts) (env : Env) (s : Machine)
    (hrun : s.halted = false) (hc : completes env s = false) :
    (env.feat_vmx = false ∧
        Vmcs_init w k env s = { s with trace := s.trace ++ [Event.disfeature] }) ∨
      (env.feat_vmx = true ∧ locked_out env = true ∧ Vmcs_init w k env s = s) := by
  unfold completes at hc
  unfold Vmcs_init
  cases hf : env.feat_vmx
  · left
    simp [hrun]
  · right
    cases hl : locked_out env
    · simp [hrun, hf, hl] at hc
    · simp [hrun]

theorem derive_fix (w : Nat) (k : Consts) (env : Env) (st : Store) :
    (derive w k env st).fix_cr0
        = { set := Msr.read w env Msr.Register.IA32_VMX_CR0_FIXED0,
            clr := bnot w (Msr.read w env Msr.Register.IA32_VMX_CR0_FIXED1) } ∧
    (derive w k env st).fix_cr4
        = { set := Msr.read w env Msr.Register.IA32_VMX_CR4_FIXED0,
            clr := bnot w (Msr.read w env Msr.Register.IA32_VMX_CR4_FIXED1) } := by
  rw [derive_eq]
  exact ⟨rfl, rfl⟩

theorem apply_fix_spec (w r m1 m0 : Nat) (h1 : m1 < 2 ^ w) (hd : m1 &&& m0 = 0) :
    apply_fix w r { set := m1, clr := m0 } = (r % 2 ^ w &&& bnot w m0) ||| m1 ∧
    apply_fix w r { set := m1, clr := m0 } &&& m1 = m1 ∧
    apply_fix w r { set := m1, clr := m0 } &&& m0 = 0 ∧
    ∀ i, (m0 ||| m1).testBit i = false →
      (apply_fix w r { set := m1, clr := m0 }).testBit i = (r % 2 ^ w).testBit i := by
  have hb : ∀ i, m1.testBit i = true → i < w := by
    intro i hi
    by_contra hlt
    have hle : w ≤ i := Nat.le_of_not_lt hlt
    have : m1 < 2 ^ i := Nat.lt_of_lt_of_le h1 (Nat.pow_le_pow_right (by decide) hle)
    rw [Nat.testBit_lt_two_pow this] at hi
    exact Bool.false_ne_true hi
  have hdis : ∀ i, m1.testBit i = true → m0.testBit i = false := by
    intro i hi
    have := congrArg (fun x => x.testBit i) hd
    simp only [Nat.testBit_and, hi, Bool.true_and, Nat.zero_testBit] at this
    exact this
  have ht : ∀ i, (apply_fix w r { set := m1, clr := m0 }).testBit i
      = ((r.testBit i && decide (i < w) && !m0.testBit i) || m1.testBit i) := by
    intro i
    simp only [apply_fix, Nat.testBit_mod_two_pow, Nat.testBit_or, Nat.testBit_and, testBit_bnot]
    cases h : m1.testBit i
    · cases decide (i < w) <;> cases r.testBit i <;> cases m0.testBit i <;> rfl
    · simp [hb i h]
  refine ⟨?_, ?_, ?_, ?_⟩
  · apply Nat.eq_of_testBit_eq
    intro i
    rw [ht]
    simp only [Nat.testBit_mod_two_pow, Nat.testBit_or, Nat.testBit_and, testBit_bnot]
    cases decide (i < w) <;> cases r.testBit i <;> cases m0.testBit i <;> cases m1.testBit i <;> rfl
  · apply Nat.eq_of_testBit_eq
    intro i
    rw [Nat.testBit_and, ht]
    cases m1.testBit i <;> simp
  · apply Nat.eq_of_testBit_eq
    intro i
    rw [Nat.testBit_and, ht, Nat.zero_testBit]
    cases h : m1.testBit i
    · cases m0.testBit i <;> simp
    · simp [hdis i h]
  · intro i hi
    rw [Nat.testBit_or] at hi
    simp only [Bool.or_eq_false_iff] at hi
    rw [ht, hi.1, hi.2, Nat.testBit_mod_two_pow]
    cases decide (i < w) <;> cases r.testBit i <;> rfl

theorem subset_or_iff (a p c : Nat) (h : subset a c) :
    subset ((a ||| p) % 2 ^ 32) c ↔ subset (p % 2 ^ 32) c := by
  rw [subset_iff_testBit] at h
  rw [subset_iff_testBit, subset_iff_testBit]
  constructor
  · intro hs i hi
    apply hs i
    rw [Nat.testBit_mod_two_pow] at hi ⊢
    rw [Nat.testBit_or]
    simp only [Bool.and_eq_true, decide_eq_true_eq] at hi ⊢
    exact ⟨hi.1, by simp [hi.2]⟩
  · intro hs i hi
    rw [Nat.testBit_mod_two_pow, Nat.testBit_or] at hi
    simp only [Bool.and_eq_true, decide_eq_true_eq, Bool.or_eq_true] at hi
    rcases hi.2 with ha | hp
    · exact h i ha
    · apply hs i
      rw [Nat.testBit_mod_two_pow]
      simp [hi.1, hp]

theorem report_ok (env : Env) (hrep : reports_ok env) (b : Bool) (t c : Msr.Register)
    (ht : is_ctrl_report t = true) (hc : is_ctrl_report c = true) :
    subset (Ctrl.mk (report env b t c)).set (Ctrl.mk (report env b t c)).clr := by
  unfold report
  cases b
  · exact hrep c hc
  · exact hrep t ht

theorem subset_or_and_iff (a p c : Nat) (ha : a < 2 ^ 32) :
    subset ((a ||| p) % 2 ^ 32) c ↔ subset (p % 2 ^ 32) c ∧ subset a c := by
  have hmod : a % 2 ^ 32 = a := Nat.mod_eq_of_lt ha
  rw [subset_iff_testBit, subset_iff_testBit, subset_iff_testBit]
  constructor
  · intro hs
    refine ⟨?_, ?_⟩
    · intro i hi
      apply hs i
      rw [Nat.testBit_mod_two_pow] at hi ⊢
      rw [Nat.testBit_or]
      simp only [Bool.and_eq_true, decide_eq_true_eq] at hi ⊢
      exact ⟨hi.1, by simp [hi.2]⟩
    · intro i hi
      apply hs i
      have hi2 : (a % 2 ^ 32).testBit i = true := by rw [hmod]; exact hi
      rw [Nat.testBit_mod_two_pow] at hi2 ⊢
      rw [Nat.testBit_or]
      simp only [Bool.and_eq_true, decide_eq_true_eq] at hi2 ⊢
      exact ⟨hi2.1, by simp [hi2.2]⟩
  · intro hs i hi
    rw [Nat.testBit_mod_two_pow, Nat.testBit_or] at hi
    simp only [Bool.and_eq_true, decide_eq_true_eq, Bool.or_eq_true] at hi
    rcases hi.2 with ha2 | hp
    · exact hs.2 i ha2
    · apply hs.1 i
      rw [Nat.testBit_mod_two_pow]
      simp [hi.1, hp]

/-- What lines 124 to 130 make of a secondary descriptor `b` when `ept_vpid.val` is `ev`. -/
theorem restrict_cpu1_invariant (k : Consts) (env : Env) (ev : Nat) (b : Ctrl) :
    (restrict_cpu1 k env ev (b.or_set k.CPU_VPID)).set = (b.set ||| k.CPU_VPID) % 2 ^ 32 ∧
    (∀ i, (restrict_cpu1 k env ev (b.or_set k.CPU_VPID)).clr.testBit i
      = (b.clr.testBit i
          && !((env.noept || !ev.testBit k.invept) && k.CPU_EPT.testBit i)
          && !((env.novpid || !ev.testBit k.invvpid) && k.CPU_VPID.testBit i))) ∧
    (subset (restrict_cpu1 k env ev (b.or_set k.CPU_VPID)).set
        (restrict_cpu1 k env ev (b.or_set k.CPU_VPID)).clr ↔
      subset ( k.CPU_VPID % 2 ^ 32) (restrict_cpu1 k env ev (b.or_set k.CPU_VPID)).clr ∧
        subset b.set (restrict_cpu1 k env ev (b.or_set k.CPU_VPID)).clr) ∧
    (subset b.set b.clr →
      (subset (restrict_cpu1 k env ev (b.or_set k.CPU_VPID)).set
          (restrict_cpu1 k env ev (b.or_set k.CPU_VPID)).clr ↔
        subset ( k.CPU_VPID % 2 ^ 32) (restrict_cpu1 k env ev (b.or_set k.CPU_VPID)).clr ∧
          ((env.noept || !ev.testBit k.invept) = true → b.set &&& k.CPU_EPT = 0))) := by
  have hset : (restrict_cpu1 k env ev (b.or_set k.CPU_VPID)).set = (b.set ||| k.CPU_VPID) % 2 ^ 32 := by
    rw [restrict_cpu1_set, Ctrl.or_set_set]
  have hclr : ∀ i, (restrict_cpu1 k env ev (b.or_set k.CPU_VPID)).clr.testBit i
      = (b.clr.testBit i
          && !((env.noept || !ev.testBit k.invept) && k.CPU_EPT.testBit i)
          && !((env.novpid || !ev.testBit k.invvpid) && k.CPU_VPID.testBit i)) := by
    intro i
    rw [restrict_cpu1_testBit, Ctrl.or_set_clr]
  have hiff : subset (restrict_cpu1 k env ev (b.or_set k.CPU_VPID)).set
        (restrict_cpu1 k env ev (b.or_set k.CPU_VPID)).clr ↔
      subset ( k.CPU_VPID % 2 ^ 32) (restrict_cpu1 k env ev (b.or_set k.CPU_VPID)).clr ∧
        subset b.set (restrict_cpu1 k env ev (b.or_set k.CPU_VPID)).clr := by
    rw [hset]
    exact subset_or_and_iff _ _ _ (Nat.mod_lt _ (by decide))
  refine ⟨hset, hclr, hiff, ?_⟩
  intro hb
  rw [hiff]
  rw [subset_iff_testBit] at hb
  constructor
  · rintro ⟨hv, hs⟩
    refine ⟨hv, ?_⟩
    intro he
    rw [subset_iff_testBit] at hs
    apply Nat.eq_of_testBit_eq
    intro i
    rw [Nat.testBit_and, Nat.zero_testBit]
    cases hbi : b.set.testBit i
    · simp
    · have := hs i hbi
      rw [hclr i, he] at this
      cases hE : k.CPU_EPT.testBit i
      · simp
      · rw [hE] at this
        simp at this
  · rintro ⟨hv, he⟩
    refine ⟨hv, ?_⟩
    rw [subset_iff_testBit] at hv ⊢
    intro i hbi
    have hlt : i < 32 := testBit_set_lt b i hbi
    cases hV : k.CPU_VPID.testBit i
    · rw [hclr i, hb i hbi, hV]
      cases hcond : (env.noept || !ev.testBit k.invept)
      · simp
      · have h0 := he hcond
        have := congrArg (fun x => x.testBit i) h0
        simp only [Nat.testBit_and, hbi, Bool.true_and, Nat.zero_testBit] at this
        simp [this]
    · apply hv i
      rw [Nat.testBit_mod_two_pow]
      simp [hlt, hV]

theorem sample_reports_ok : reports_ok sample_env := by
  intro r hr
  cases r <;> first | exact absurd hr (by decide) | decide

/-! ## `Vmcs::init`: results -/

/-- C5: on a run of `Vmcs::init` that reaches lines 132 and 133, if the derived must-be-one
mask `M1` (`set`) and must-be-zero mask `M0` (`clr`) of CR0 are disjoint then the value
written back to CR0 is `(R & ~M0) | M1` for the value `R` read from it, has every bit of
`M1` set, no bit of `M0` set, and agrees with `R` on every bit outside `M0 | M1`; likewise
for CR4. -/
theorem init_fixed_registers (w : Nat) (k : Consts) (env : Env) (s : Machine)
    (hc : completes env s = true) :
    ((Vmcs_init w k env s).store.fix_cr0.set &&& (Vmcs_init w k env s).store.fix_cr0.clr = 0 →
      (Vmcs_init w k env s).cr0
        = (s.get_cr0 w &&& bnot w (Vmcs_init w k env s).store.fix_cr0.clr)
            ||| (Vmcs_init w k env s).store.fix_cr0.set ∧
      (Vmcs_init w k env s).cr0 &&& (Vmcs_init w k env s).store.fix_cr0.set
        = (Vmcs_init w k env s).store.fix_cr0.set ∧
      (Vmcs_init w k env s).cr0 &&& (Vmcs_init w k env s).store.fix_cr0.clr = 0 ∧
      ∀ i, ((Vmcs_init w k env s).store.fix_cr0.clr
              ||| (Vmcs_init w k env s).store.fix_cr0.set).testBit i = false →
        (Vmcs_init w k env s).cr0.testBit i = (s.get_cr0 w).testBit i) ∧
    ((Vmcs_init w k env s).store.fix_cr4.set &&& (Vmcs_init w k env s).store.fix_cr4.clr = 0 →
      (Vmcs_init w k env s).cr4
        = (s.get_cr4 w &&& bnot w (Vmcs_init w k env s).store.fix_cr4.clr)
            ||| (Vmcs_init w k env s).store.fix_cr4.set ∧
      (Vmcs_init w k env s).cr4 &&& (Vmcs_init w k env s).store.fix_cr4.set
        = (Vmcs_init w k env s).store.fix_cr4.set ∧
      (Vmcs_init w k env s).cr4 &&& (Vmcs_init w k env s).store.fix_cr4.clr = 0 ∧
      ∀ i, ((Vmcs_init w k env s).store.fix_cr4.clr
              ||| (Vmcs_init w k env s).store.fix_cr4.set).testBit i = false →
        (Vmcs_init w k env s).cr4.testBit i = (s.get_cr4 w).testBit i) := by
  rw [init_completes w k env s hc]
  simp only
  obtain ⟨f0, f4⟩ := derive_fix w k env s.store
  rw [f0, f4]
  exact ⟨fun h0 => apply_fix_spec w s.cr0 _ _ (Nat.mod_lt _ (Nat.two_pow_pos w)) h0,
    fun h4 => apply_fix_spec w s.cr4 _ _ (Nat.mod_lt _ (Nat.two_pow_pos w)) h4⟩

/-- C5, witness: `Vmcs::init` on the sample environment with CR0 holding `0x8`. -/
theorem init_fixed_registers_witness :
    (Machine.sample.cr0
        = ((Machine.boot 0x8).get_cr0 32 &&& bnot 32 Machine.sample.store.fix_cr0.clr)
            ||| Machine.sample.store.fix_cr0.set ∧
      Machine.sample.cr0 &&& Machine.sample.store.fix_cr0.set = Machine.sample.store.fix_cr0.set ∧
      Machine.sample.cr0 &&& Machine.sample.store.fix_cr0.clr = 0 ∧
      ∀ i, (Machine.sample.store.fix_cr0.clr ||| Machine.sample.store.fix_cr0.set).testBit i = false →
        Machine.sample.cr0.testBit i = ((Machine.boot 0x8).get_cr0 32).testBit i) ∧
    (Machine.sample.cr4
        = ((Machine.boot 0x8).get_cr4 32 &&& bnot 32 Machine.sample.store.fix_cr4.clr)
            ||| Machine.sample.store.fix_cr4.set ∧
      Machine.sample.cr4 &&& Machine.sample.store.fix_cr4.set = Machine.sample.store.fix_cr4.set ∧
      Machine.sample.cr4 &&& Machine.sample.store.fix_cr4.clr = 0 ∧
      ∀ i, (Machine.sample.store.fix_cr4.clr ||| Machine.sample.store.fix_cr4.set).testBit i = false →
        Machine.sample.cr4.testBit i = ((Machine.boot 0x8).get_cr4 32).testBit i) :=
  ⟨(init_fixed_registers 32 ia32 sample_env (Machine.boot 0x8) (by decide)).1 (by decide),
    (init_fixed_registers 32 ia32 sample_env (Machine.boot 0x8) (by decide)).2 (by decide)⟩

/-- C6: running `Vmcs::init` a second time on the same capability reports, flags and
overrides, from whatever store the first run left (in particular the one it derives from
the zero-initialised store), leaves the whole capability store as the first run left it,
also when the secondary and EPT/VPID reports are skipped and on the early exits. -/
theorem init_store_idempotent (w : Nat) (k : Consts) (env : Env) (s : Machine) :
    (Vmcs_init w k env (Vmcs_init w k env s)).store = (Vmcs_init w k env s).store := by
  cases hc : completes env s with
  | false =>
    obtain ⟨h1, h2⟩ := init_early w k env s hc
    have hc2 : completes env (Vmcs_init w k env s) = false := by
      unfold completes at hc ⊢
      rw [h2]
      exact hc
    rw [(init_early w k env _ hc2).1]
  | true =>
    have h1 := init_completes w k env s hc
    have hc2 : completes env (Vmcs_init w k env s) = true := by
      rw [h1]
      unfold completes at hc ⊢
      exact hc
    rw [init_completes w k env _ hc2]
    rw [h1]
    exact derive_idem w k env s.store

/-- C7: on the processor that advertises the feature but has the lock bits clear,
`Vmcs::init` stops at line 106 with the machine exactly as it was, so `Hip::disfeature` is
not called; on the processor that does not advertise the feature the sibling exit of
line 100 calls it. -/
theorem init_locked_out_keeps_feature :
    locked_env.feat_vmx = true ∧ locked_out locked_env = true ∧
    Vmcs_init 32 ia32 locked_env (Machine.boot 0x8) = Machine.boot 0x8 ∧
    Event.disfeature ∉ (Vmcs_init 32 ia32 locked_env (Machine.boot 0x8)).trace ∧
    (Vmcs_init 32 ia32 no_vmx_env (Machine.boot 0x8)).trace = [Event.disfeature] := by
  decide

/-- C8, counterexample: every control-field report of the sample processor has its
mandatory half inside its allowed half, and with the `novpid` override set `Vmcs::init`
runs to its end and leaves the secondary descriptor with `CPU_VPID` mandatory but not
allowed. -/
theorem init_breaks_invariant :
    reports_ok novpid_env ∧ completes novpid_env (Machine.boot 0x8) = true ∧
    ¬ subset (Vmcs_init 32 ia32 novpid_env (Machine.boot 0x8)).store.ctrl_cpu1.set
        (Vmcs_init 32 ia32 novpid_env (Machine.boot 0x8)).store.ctrl_cpu1.clr :=
  ⟨fun r hr => sample_reports_ok r hr, by decide, by decide⟩

/-- C8, amended: when every control-field report has its mandatory half inside its allowed
half and `Vmcs::init` runs to its end, then for every setting of the overrides the
pin-based, exit and entry descriptors have `set ⊆ clr`, and the primary processor-based
descriptor has it exactly when its allowed mask contains `CPU_HLT | CPU_IO | CPU_SECONDARY`.
The secondary descriptor starts from its source (the secondary report when it is read, the
previous contents otherwise); its mandatory mask is the source's with `CPU_VPID` added; its
allowed mask is the source's with `CPU_EPT` removed exactly when `noept` is set or INVEPT is
not supported and `CPU_VPID` removed exactly when `novpid` is set or INVVPID is not
supported; and it has `set ⊆ clr` exactly when that final allowed mask contains `CPU_VPID`
and every mandatory bit of the source, which for a report that is read means: contains
`CPU_VPID` and, when `CPU_EPT` is removed, the report does not mandate `CPU_EPT`. -/
theorem init_descriptor_invariant (w : Nat) (k : Consts) (env : Env) (s : Machine)
    (hc : completes env s = true) (hrep : reports_ok env) :
    subset (Vmcs_init w k env s).store.ctrl_pin.set (Vmcs_init w k env s).store.ctrl_pin.clr ∧
    subset (Vmcs_init w k env s).store.ctrl_exi.set (Vmcs_init w k env s).store.ctrl_exi.clr ∧
    subset (Vmcs_init w k env s).store.ctrl_ent.set (Vmcs_init w k env s).store.ctrl_ent.clr ∧
    (subset (Vmcs_init w k env s).store.ctrl_cpu0.set (Vmcs_init w k env s).store.ctrl_cpu0.clr ↔
      subset (( k.CPU_HLT ||| k.CPU_IO ||| k.CPU_SECONDARY) % 2 ^ 32)
        (Vmcs_init w k env s).store.ctrl_cpu0.clr) ∧
    (has_secondary k (Vmcs_init w k env s).store = true →
      secondary_source w k env s.store
        = Ctrl.mk (Msr.read u64 env Msr.Register.IA32_VMX_CTRL_CPU1)) ∧
    (has_secondary k (Vmcs_init w k env s).store = false →
      secondary_source w k env s.store = s.store.ctrl_cpu1) ∧
    (Vmcs_init w k env s).store.ept_vpid
      = (if (decide ((secondary_source w k env s.store).clr &&& k.CPU_EPT ≠ 0)
              || decide ((secondary_source w k env s.store).clr &&& k.CPU_VPID ≠ 0))
          then Msr.read u64 env Msr.Register.IA32_VMX_EPT_VPID else s.store.ept_vpid) ∧
    (Vmcs_init w k env s).store.ctrl_cpu1.set
      = ((secondary_source w k env s.store).set ||| k.CPU_VPID) % 2 ^ 32 ∧
    (∀ i, (Vmcs_init w k env s).store.ctrl_cpu1.clr.testBit i
      = ((secondary_source w k env s.store).clr.testBit i
          && !((env.noept || !(Vmcs_init w k env s).store.invept k) && k.CPU_EPT.testBit i)
          && !((env.novpid || !(Vmcs_init w k env s).store.invvpid k) && k.CPU_VPID.testBit i))) ∧
    (subset (Vmcs_init w k env s).store.ctrl_cpu1.set (Vmcs_init w k env s).store.ctrl_cpu1.clr ↔
      subset ( k.CPU_VPID % 2 ^ 32) (Vmcs_init w k env s).store.ctrl_cpu1.clr ∧
        subset (secondary_source w k env s.store).set (Vmcs_init w k env s).store.ctrl_cpu1.clr) ∧
    (has_secondary k (Vmcs_init w k env s).store = true →
      (subset (Vmcs_init w k env s).store.ctrl_cpu1.set (Vmcs_init w k env s).store.ctrl_cpu1.clr ↔
        subset ( k.CPU_VPID % 2 ^ 32) (Vmcs_init w k env s).store.ctrl_cpu1.clr ∧
          ((env.noept || !(Vmcs_init w k env s).store.invept k) = true →
            (Ctrl.mk (Msr.read u64 env Msr.Register.IA32_VMX_CTRL_CPU1)).set &&& k.CPU_EPT = 0))) := by
  rw [init_completes w k env s hc]
  simp only
  rw [derive_eq]
  simp only [Store.invept, Store.invvpid]
  have hsec : ∀ b : Bool,
      has_secondary k
        { read_caps w k env s.store with
          ctrl_cpu0 := (read_caps w k env s.store).ctrl_cpu0.or_set
            ( k.CPU_HLT ||| k.CPU_IO ||| k.CPU_SECONDARY),
          ept_vpid := (read_ept_vpid k env (read_secondary k env (read_caps w k env s.store))).ept_vpid,
          ctrl_cpu1 := restrict_cpu1 k env
            (read_ept_vpid k env (read_secondary k env (read_caps w k env s.store))).ept_vpid
            ((read_secondary k env (read_caps w k env s.store)).ctrl_cpu1.or_set k.CPU_VPID) } = b →
      has_secondary k (read_caps w k env s.store) = b := by
    intro b hb
    unfold has_secondary at hb ⊢
    simp only at hb
    rw [Ctrl.or_set_clr] at hb
    exact hb
  have hsrc1 : has_secondary k (read_caps w k env s.store) = true →
      secondary_source w k env s.store
        = Ctrl.mk (Msr.read u64 env Msr.Register.IA32_VMX_CTRL_CPU1) := by
    intro h
    unfold secondary_source
    rw [read_secondary_cpu1, h, if_pos rfl]
  have hsrc0 : has_secondary k (read_caps w k env s.store) = false →
      secondary_source w k env s.store = s.store.ctrl_cpu1 := by
    intro h
    unfold secondary_source
    rw [read_secondary_cpu1, h]
    rfl
  obtain ⟨r1, r2, r3, r4⟩ := restrict_cpu1_invariant k env
    (read_ept_vpid k env (read_secondary k env (read_caps w k env s.store))).ept_vpid
    (secondary_source w k env s.store)
  refine ⟨?_, ?_, ?_, ?_, ?_, ?_, ?_, r1, r2, r3, ?_⟩
  · exact report_ok env hrep _ _ _ rfl rfl
  · exact report_ok env hrep _ _ _ rfl rfl
  · exact report_ok env hrep _ _ _ rfl rfl
  · rw [Ctrl.or_set_set, Ctrl.or_set_clr]
    exact subset_or_iff _ _ _ (report_ok env hrep _ _ _ rfl rfl)
  · intro h
    exact hsrc1 (hsec true h)
  · intro h
    exact hsrc0 (hsec false h)
  · rw [read_ept_vpid_val, read_secondary_ept_vpid]
    rfl
  · intro h
    have hs := hsrc1 (hsec true h)
    have hok : subset (secondary_source w k env s.store).set (secondary_source w k env s.store).clr := by
      rw [hs]
      exact hrep _ rfl
    have hs2 : (read_secondary k env (read_caps w k env s.store)).ctrl_cpu1
        = Ctrl.mk (Msr.read u64 env Msr.Register.IA32_VMX_CTRL_CPU1) := hs
    have := r4 hok
    rw [hs] at this
    rw [hs2]
    exact this

/-- C8, witness of the amended claim: `Vmcs::init` on the sample environment with the
`noept` override set. -/
theorem init_descriptor_invariant_witness :
    subset Machine.sample_noept.store.ctrl_pin.set Machine.sample_noept.store.ctrl_pin.clr ∧
    subset Machine.sample_noept.store.ctrl_exi.set Machine.sample_noept.store.ctrl_exi.clr ∧
    subset Machine.sample_noept.store.ctrl_ent.set Machine.sample_noept.store.ctrl_ent.clr ∧
    (subset Machine.sample_noept.store.ctrl_cpu0.set Machine.sample_noept.store.ctrl_cpu0.clr ↔
      subset (( ia32.CPU_HLT ||| ia32.CPU_IO ||| ia32.CPU_SECONDARY) % 2 ^ 32)
        Machine.sample_noept.store.ctrl_cpu0.clr) ∧
    (has_secondary ia32 Machine.sample_noept.store = true →
      secondary_source 32 ia32 noept_env (Machine.boot 0x8).store
        = Ctrl.mk (Msr.read u64 noept_env Msr.Register.IA32_VMX_CTRL_CPU1)) ∧
    (has_secondary ia32 Machine.sample_noept.store = false →
      secondary_source 32 ia32 noept_env (Machine.boot 0x8).store = (Machine.boot 0x8).store.ctrl_cpu1) ∧
    Machine.sample_noept.store.ept_vpid
      = (if (decide ((secondary_source 32 ia32 noept_env (Machine.boot 0x8).store).clr &&& ia32.CPU_EPT ≠ 0)
              || decide ((secondary_source 32 ia32 noept_env (Machine.boot 0x8).store).clr &&& ia32.CPU_VPID ≠ 0))
          then Msr.read u64 noept_env Msr.Register.IA32_VMX_EPT_VPID else (Machine.boot 0x8).store.ept_vpid) ∧
    Machine.sample_noept.store.ctrl_cpu1.set
      = ((secondary_source 32 ia32 noept_env (Machine.boot 0x8).store).set ||| ia32.CPU_VPID) % 2 ^ 32 ∧
    (∀ i, Machine.sample_noept.store.ctrl_cpu1.clr.testBit i
      = ((secondary_source 32 ia32 noept_env (Machine.boot 0x8).store).clr.testBit i
          && !((noept_env.noept || !Machine.sample_noept.store.invept ia32) && ia32.CPU_EPT.testBit i)
          && !((noept_env.novpid || !Machine.sample_noept.store.invvpid ia32) && ia32.CPU_VPID.testBit i))) ∧
    (subset Machine.sample_noept.store.ctrl_cpu1.set Machine.sample_noept.store.ctrl_cpu1.clr ↔
      subset ( ia32.CPU_VPID % 2 ^ 32) Machine.sample_noept.store.ctrl_cpu1.clr ∧
        subset (secondary_source 32 ia32 noept_env (Machine.boot 0x8).store).set Machine.sample_noept.store.ctrl_cpu1.clr) ∧
    (has_secondary ia32 Machine.sample_noept.store = true →
      (subset Machine.sample_noept.store.ctrl_cpu1.set Machine.sample_noept.store.ctrl_cpu1.clr ↔
        subset ( ia32.CPU_VPID % 2 ^ 32) Machine.sample_noept.store.ctrl_cpu1.clr ∧
          ((noept_env.noept || !Machine.sample_noept.store.invept ia32) = true →
            (Ctrl.mk (Msr.read u64 noept_env Msr.Register.IA32_VMX_CTRL_CPU1)).set &&& ia32.CPU_EPT = 0))) :=
  init_descriptor_invariant 32 ia32 noept_env (Machine.boot 0x8) (by decide)
    (fun r hr => sample_reports_ok r hr)

/-- With `noept` set on the sample processor the secondary descriptor ends with `set = 0x20`
and `clr = 0xfd` and has `set ⊆ clr`. -/
theorem init_noept_keeps_invariant :
    Machine.sample_noept.store.ctrl_cpu1.set = 0x20 ∧
    Machine.sample_noept.store.ctrl_cpu1.clr = 0xfd ∧
    subset Machine.sample_noept.store.ctrl_cpu1.set Machine.sample_noept.store.ctrl_cpu1.clr := by
  decide

/-! ## `include/user.h`: results -/

namespace User

theorem or_minus_one_eax (w : Nat) (c : Cpu) : (or_minus_one w c).eax = SUCCESS w := by
  simp only [or_minus_one, SUCCESS]
  exact or_all_ones w c.eax

theorem SUCCESS_ne_zero (w : Nat) (hw : 0 < w) : SUCCESS w ≠ 0 := by
  have h : 2 ^ 1 ≤ 2 ^ w := Nat.pow_le_pow_right (by decide) hw
  simp only [SUCCESS]
  omega

/-- C4: on a mapped location holding `cell.val`, `User::peek` (no fault during the load)
returns the success status, which is all ones and not zero, sets `val` to exactly the
stored value and leaves memory as it was. -/
theorem peek_success (w : Nat) (hw : 0 < w) (mem : Memory) (ret0 val0 addr : Nat) (cell : Cell)
    (h : mem addr = some cell) :
    peek w mem ret0 val0 addr = some (SUCCESS w, cell.val, mem) ∧
      SUCCESS w = 2 ^ w - 1 ∧ SUCCESS w ≠ 0 := by
  refine ⟨?_, rfl, SUCCESS_ne_zero w hw⟩
  simp only [peek, mov_load, h]
  rw [or_minus_one_eax]
  rfl

/-- C4, witness: the location holds `0xDEADBEEF`. -/
theorem peek_success_witness :
    single 0x1000 0xDEADBEEF 0x1000 = some { val := 0xDEADBEEF, writable := true } ∧
    (peek 32 (single 0x1000 0xDEADBEEF) 0 0 0x1000
        = some (SUCCESS 32, 0xDEADBEEF, single 0x1000 0xDEADBEEF) ∧
      SUCCESS 32 = 2 ^ 32 - 1 ∧ SUCCESS 32 ≠ 0) :=
  ⟨rfl, peek_success 32 (by decide) (single 0x1000 0xDEADBEEF) 0 0 0x1000
    { val := 0xDEADBEEF, writable := true } rfl⟩

/-- C3: on a mapped, writable location (no fault), `User::cmp_swap (addr, o, n)` returns,
and afterwards the location holds `n` if it held `o` and its previous value otherwise,
while every other location is as before. -/
theorem cmp_swap_memory (w : Nat) (mem : Memory) (addr o n : Nat) (cell : Cell)
    (h : mem addr = some cell) (hwr : cell.writable = true) :
    ∃ ret mem1, cmp_swap w mem addr o n = some (ret, mem1) ∧
      mem1 addr = some { cell with val := if cell.val = o then n else cell.val } ∧
      ∀ a, a ≠ addr → mem1 a = mem a := by
  by_cases e : cell.val = o
  · refine ⟨SUCCESS w, fun a => if a = addr then some { cell with val := n } else mem a, ?_, ?_, ?_⟩
    · simp only [cmp_swap, lock_cmpxchg, h, hwr, e]
      simp [or_minus_one, or_all_ones, SUCCESS]
    · simp [e]
    · intro a ha
      simp [ha]
  · refine ⟨SUCCESS w, mem, ?_, ?_, ?_⟩
    · simp only [cmp_swap, lock_cmpxchg, h, hwr, e]
      simp [or_minus_one, or_all_ones, SUCCESS]
    · simp [e, h]
    · intro a _
      rfl

/-- C3, witness: the location holds `5` and `cmp_swap (addr, 5, 9)` stores `9`. -/
theorem cmp_swap_memory_witness :
    ∃ ret mem1, cmp_swap 32 (single 0x1000 5) 0x1000 5 9 = some (ret, mem1) ∧
      mem1 0x1000 = some { val := if (5 : Nat) = 5 then 9 else 5, writable := true } ∧
      ∀ a, a ≠ 0x1000 → mem1 a = single 0x1000 5 a :=
  cmp_swap_memory 32 (single 0x1000 5) 0x1000 5 9 { val := 5, writable := true } rfl rfl

/-- C2, counterexample: with the location holding 9, `cmp_swap (addr, 5, 1)` does not swap
and yet returns the success status, the same status that `cmp_swap (addr, 5, 9)` returns
with the location holding 5. -/
theorem cmp_swap_mismatch_status :
    (cmp_swap 32 (single 0x1000 9) 0x1000 5 1).map Prod.fst = some (SUCCESS 32) ∧
    (cmp_swap 32 (single 0x1000 9) 0x1000 5 1).map (fun r => r.2 0x1000)
      = some (some { val := 9, writable := true }) ∧
    (cmp_swap 32 (single 0x1000 5) 0x1000 5 9).map Prod.fst = some (SUCCESS 32) := by
  decide

/-- C2, amended: on a mapped, writable location (no fault), `User::cmp_swap (addr, o, n)`
returns the all-ones success status whether or not the location held `o`. -/
theorem cmp_swap_status (w : Nat) (mem : Memory) (addr o n : Nat) (cell : Cell)
    (h : mem addr = some cell) (hwr : cell.writable = true) :
    (cmp_swap w mem addr o n).map Prod.fst = some (SUCCESS w) := by
  by_cases e : cell.val = o
  · simp only [cmp_swap, lock_cmpxchg, h, hwr, e]
    simp [or_minus_one_eax]
  · simp only [cmp_swap, lock_cmpxchg, h, hwr, e]
    simp [or_minus_one_eax]

/-- C2, witness of the amended claim: the location holds `9` and `cmp_swap (addr, 5, 1)`
returns the success status. -/
theorem cmp_swap_status_witness :
    (cmp_swap 32 (single 0x1000 9) 0x1000 5 1).map Prod.fst = some (SUCCESS 32) :=
  cmp_swap_status 32 (single 0x1000 9) 0x1000 5 1 { val := 9, writable := true } rfl rfl

end User

end Nova
